import Mathlib

/-!
Verification of the django-goals scheduler engine.

The definitions below are a shallow embedding of `django_goals/models.py`,
`django_goals/busy_worker.py` and `django_goals/pickups.py`: the database is a
pure value (lists of goal rows, dependency edges, progress rows and pickup
rows), each Django ORM operation becomes a pure function on that value, and
the committed-state evolution of a deployment becomes a step relation.  Time
is modelled in whole seconds as `Int`.  Handler invocation is modelled by
passing the handler outcome as an argument to the dispatch step, exactly as
`follow_instructions` would deliver it.
-/

namespace DjangoGoals

/-- States of a goal, from `GoalState` in django_goals/models.py.  The enum
has exactly these seven members; in particular there is no
`IT_IS_A_KILLER_TASK` member. -/
inductive GoalState where
  | blocked
  | waiting_for_date
  | waiting_for_preconditions
  | waiting_for_worker
  | achieved
  | given_up
  | not_going_to_happen_soon
deriving DecidableEq, Repr

/-- `NOT_GOING_TO_HAPPEN_SOON_STATES` from models.py. -/
def NOT_GOING_TO_HAPPEN_SOON_STATES : List GoalState :=
  [.blocked, .given_up, .not_going_to_happen_soon]

/-- `WAITING_STATES` from models.py. -/
def WAITING_STATES : List GoalState :=
  [.waiting_for_date, .waiting_for_preconditions, .waiting_for_worker]

/-- `PreconditionsMode` from models.py. -/
inductive PreconditionsMode where
  | all
  | any
deriving DecidableEq, Repr

/-- `PreconditionFailureBehavior` from models.py. -/
inductive PreconditionFailureBehavior where
  | block
  | proceed
deriving DecidableEq, Repr

/-- One row of the `Goal` table (models.py `class Goal`).  `instructions`
and the JSON payload are opaque to the engine and omitted; timestamps are
seconds as `Int`. -/
structure Goal where
  gid : Nat
  state : GoalState
  handler : String := ""
  precondition_date : Int
  preconditions_mode : PreconditionsMode
  precondition_failure_behavior : PreconditionFailureBehavior
  waiting_for_count : Int
  waiting_for_not_achieved_count : Int
  waiting_for_failed_count : Int
  deadline : Int
  created_at : Int
deriving DecidableEq, Repr

/-- One row of the `GoalProgress` table (models.py `class GoalProgress`).
`time_taken` is wall-clock measurement noise and omitted. -/
structure ProgressRec where
  goal_id : Nat
  success : Bool
  created_at : Int
  message : String := ""
deriving DecidableEq, Repr

/-- One row of the `GoalPickup` table (pickups.py `class GoalPickup`). -/
structure PickupRec where
  goal_id : Nat
  created_at : Int := 0
deriving DecidableEq, Repr

/-- The committed database state.  `deps` holds `GoalDependency` rows as
(dependent_goal_id, precondition_goal_id) pairs.  `externally_protected`
records which goal ids are referenced from outside the engine through an
on_delete=PROTECT foreign key (e.g. example_app.GoalRelatedModel). -/
structure Db where
  goals : List Goal := []
  deps : List (Nat × Nat) := []
  progress : List ProgressRec := []
  pickups : List PickupRec := []
  externally_protected : List Nat := []
deriving DecidableEq, Repr

/-- The Django settings keys the engine reads, with their source defaults. -/
structure Settings where
  GOALS_GIVE_UP_AT : Nat := 4
  GOALS_MAX_PROGRESS_COUNT : Option Nat := some 100
  GOALS_RETENTION_SECONDS : Option Int := some (60 * 60 * 24 * 7)
  GOALS_MAX_PICKUPS : Option Nat := none
  GOALS_DEFAULT_DEADLINE_SECONDS : Int := 7 * 24 * 60 * 60
deriving DecidableEq, Repr

/-- Look a goal row up by primary key. -/
def Db.findGoal (db : Db) (i : Nat) : Option Goal :=
  db.goals.find? (fun g => g.gid = i)

/-- An UPDATE over the goal table: apply `f` to every row satisfying `p`. -/
def update_where (p : Goal → Bool) (f : Goal → Goal) (gs : List Goal) : List Goal :=
  gs.map (fun g => if p g then f g else g)

/-- The join `Goal.objects.filter(precondition_goals__id__in=ids)`: goals
having at least one precondition edge into `ids`.  The UPDATE built on it
touches each such dependent exactly once (the SQL is `pk IN (subquery)`). -/
def is_dependent_on (deps : List (Nat × Nat)) (ids : List Nat) (g : Goal) : Bool :=
  deps.any (fun e => e.1 = g.gid && ids.contains e.2)

/-- `_mark_as_failed(goal_ids, target_state)` from models.py: set the state
of the given goals, bump `waiting_for_failed_count` on each dependent, and
for PROCEED dependents also decrement `waiting_for_count`. -/
def mark_as_failed (ids : List Nat) (target : GoalState) (db : Db) : Db :=
  if ids.isEmpty then db else
  let gs1 := update_where (fun g => ids.contains g.gid)
    (fun g => { g with state := target }) db.goals
  let gs2 := update_where (is_dependent_on db.deps ids)
    (fun g => { g with waiting_for_failed_count := g.waiting_for_failed_count + 1 }) gs1
  let gs3 := update_where
    (fun g => is_dependent_on db.deps ids g &&
      (g.precondition_failure_behavior == .proceed))
    (fun g => { g with waiting_for_count := g.waiting_for_count - 1 }) gs2
  { db with goals := gs3 }

/-- `_mark_as_unfailed(goal_ids)` from models.py: send the goals back to
WAITING_FOR_DATE and decrement `waiting_for_failed_count` on dependents. -/
def mark_as_unfailed (ids : List Nat) (db : Db) : Db :=
  if ids.isEmpty then db else
  let gs1 := update_where (fun g => ids.contains g.gid)
    (fun g => { g with state := .waiting_for_date }) db.goals
  let gs2 := update_where (is_dependent_on db.deps ids)
    (fun g => { g with waiting_for_failed_count := g.waiting_for_failed_count - 1 }) gs1
  { db with goals := gs2 }

/-- `handle_waiting_for_date(now)` from models.py: move due
WAITING_FOR_DATE goals to WAITING_FOR_PRECONDITIONS; returns the count. -/
def handle_waiting_for_date (now : Int) (db : Db) : Db × Nat :=
  let ids := (db.goals.filter (fun g =>
    g.state == .waiting_for_date && decide (g.precondition_date ≤ now))).map (·.gid)
  let gs := update_where (fun g => ids.contains g.gid)
    (fun g => { g with state := .waiting_for_preconditions }) db.goals
  ({ db with goals := gs }, ids.length)

/-- `handle_waiting_for_preconditions()` from models.py: goals in
WAITING_FOR_PRECONDITIONS whose `waiting_for_count ≤ 0` become
WAITING_FOR_WORKER (and a wakeup notification is emitted per id). -/
def handle_waiting_for_preconditions (db : Db) : Db × Nat :=
  let ids := (db.goals.filter (fun g =>
    g.state == .waiting_for_preconditions && decide (g.waiting_for_count ≤ 0))).map (·.gid)
  let gs := update_where (fun g => ids.contains g.gid)
    (fun g => { g with state := .waiting_for_worker }) db.goals
  ({ db with goals := gs }, ids.length)

/-- `handle_waiting_for_failed_preconditions()` from models.py: a BLOCK-mode
goal waiting on a failed precondition is marked NOT_GOING_TO_HAPPEN_SOON. -/
def handle_waiting_for_failed_preconditions (db : Db) : Db × Nat :=
  let ids := (db.goals.filter (fun g =>
    g.state == .waiting_for_preconditions &&
    g.precondition_failure_behavior == .block &&
    decide (0 < g.waiting_for_failed_count))).map (·.gid)
  (mark_as_failed ids .not_going_to_happen_soon db, ids.length)

/-- `handle_unblocked_goals()` from models.py: a NOT_GOING_TO_HAPPEN_SOON
goal with no failed preconditions left is sent back to WAITING_FOR_DATE. -/
def handle_unblocked_goals (db : Db) : Db × Nat :=
  let ids := (db.goals.filter (fun g =>
    g.state == .not_going_to_happen_soon &&
    decide (g.waiting_for_failed_count ≤ 0))).map (·.gid)
  (mark_as_unfailed ids db, ids.length)

/-- `get_retry_delay(failure_index)` from models.py: `None` once
`failure_index + 1` reaches GOALS_GIVE_UP_AT, else `10s * 2^failure_index`. -/
def get_retry_delay (give_up_at : Nat) (failure_index : Nat) : Option Int :=
  if give_up_at ≤ failure_index + 1 then none
  else some (10 * (2 : Int) ^ failure_index)

/-- Outcome of `follow_instructions(goal)`: the handler raised, returned
`RetryMeLater` (a `RetryMeLaterException` is normalised to the same value),
returned `AllDone`, or returned anything else (logged and ignored). -/
inductive HandlerOutcome where
  | raised
  | retry_me_later (precondition_date : Option Int)
      (precondition_goals : Option (List Goal)) (message : String)
  | all_done
  | unknown_value
deriving DecidableEq, Repr

/-- Precondition ids of one goal, read off the dependency edges. -/
def precond_ids (deps : List (Nat × Nat)) (i : Nat) : List Nat :=
  (deps.filter (fun e => e.1 = i)).map (·.2)

/-- `update_goals_deadline(goals_qs, deadline)` from models.py: among the
given ids, every non-ACHIEVED goal whose deadline exceeds `d` is set to
`Least(deadline, d)`, then the recursion visits its preconditions.  The
source recursion terminates because only goals with deadline above `d` are
ever selected; here the recursion depth is paid for with `fuel`, and
`update_goals_deadline_fuel_stable` below shows any fuel above the number of
late goals computes the same fixed result. -/
def update_goals_deadline (deps : List (Nat × Nat)) :
    Nat → List Goal → List Nat → Int → List Goal
  | 0, gs, _, _ => gs
  | fuel + 1, gs, ids, d =>
    let targets := ids.filter (fun i =>
      match gs.find? (fun g => g.gid = i) with
      | some g => decide (d < g.deadline) && !(g.state == .achieved)
      | none => false)
    let gs1 := update_where (fun g => targets.contains g.gid)
      (fun g => { g with deadline := min g.deadline d }) gs
    targets.foldl (fun acc i =>
      update_goals_deadline deps fuel acc (precond_ids deps i) d) gs1

/-- The counter loop of `_add_precondition_goals`: for each newly linked
precondition (its current, locked row), bump the waiting counters on the
dependent goal's in-memory instance. -/
def count_new_preconditions (goal : Goal) (new_precondition_goals : List Goal) : Goal :=
  new_precondition_goals.foldl (fun a p =>
    let a := if p.state ≠ GoalState.achieved then
        { a with waiting_for_count := a.waiting_for_count + 1,
                 waiting_for_not_achieved_count := a.waiting_for_not_achieved_count + 1 }
      else a
    if NOT_GOING_TO_HAPPEN_SOON_STATES.contains p.state then
      { a with waiting_for_failed_count := a.waiting_for_failed_count + 1 }
    else a) goal

/-- The PROCEED adjustment of `_add_precondition_goals`: failed
preconditions are treated like achieved ones. -/
def apply_proceed_adjustment (goal : Goal) : Goal :=
  if goal.precondition_failure_behavior = .proceed then
    { goal with waiting_for_count := goal.waiting_for_count - goal.waiting_for_failed_count }
  else goal

/-- The ANY-mode block of `_add_precondition_goals`: cap
`waiting_for_count` at 1, force it to 1 while something is not achieved,
and zero it when a precondition completed (or, under PROCEED, failed)
between the caller's stale observation and the locked re-read. -/
def apply_any_cap (goal : Goal) : Goal :=
  let goal := { goal with waiting_for_count := min goal.waiting_for_count 1 }
  if (0 : Int) < goal.waiting_for_not_achieved_count then
    { goal with waiting_for_count := 1 }
  else goal

/-- The stale-observation detection loop of the ANY-mode block: zero
`waiting_for_count` when a precondition completed (or, under PROCEED,
failed) between the caller's stale observation and the locked re-read. -/
def apply_any_detection (goal : Goal) (pgoals : List Goal)
    (new_precondition_goals : List Goal) : Goal :=
  new_precondition_goals.foldl (fun a p =>
    match pgoals.reverse.find? (fun o => o.gid = p.gid) with
    | some orig =>
      if (orig.state ≠ GoalState.achieved ∧ p.state = GoalState.achieved) ∨
         (a.precondition_failure_behavior = .proceed ∧
          ¬ NOT_GOING_TO_HAPPEN_SOON_STATES.contains orig.state ∧
          NOT_GOING_TO_HAPPEN_SOON_STATES.contains p.state) then
        { a with waiting_for_count := 0 }
      else a
    | none => a) goal

/-- The ANY-mode block of `_add_precondition_goals`: cap, force-1, then the
stale-observation detection. -/
def apply_any_mode (goal : Goal) (pgoals : List Goal)
    (new_precondition_goals : List Goal) : Goal :=
  if goal.preconditions_mode = .any then
    apply_any_detection (apply_any_cap goal) pgoals new_precondition_goals
  else goal

/-- `_add_precondition_goals(goal, precondition_goals)` from models.py.
`goal` is the caller's in-memory instance (its counters are the committed
ones for the dispatch and schedule call sites); `precondition_goals` carries
the caller's possibly stale view of the precondition rows, whose current
versions are re-read from `db` under lock.  Writes the three waiting
counters of `goal`'s row, inserts the missing dependency edges, and finally
tightens deadlines on the new preconditions' ancestor graph. -/
def add_precondition_goals (goal : Goal) (precondition_goals : Option (List Goal))
    (db : Db) : Db :=
  let goal := { goal with waiting_for_count := 0 }
  match precondition_goals with
  | none =>
    let gs := update_where (fun g => g.gid = goal.gid)
      (fun g => { g with waiting_for_count := goal.waiting_for_count }) db.goals
    { db with goals := gs }
  | some pgoals =>
    let pids := pgoals.map (·.gid)
    let new_precondition_goals := db.goals.filter (fun p =>
      pids.contains p.gid && !(db.deps.contains (goal.gid, p.gid)))
    let deps1 := db.deps ++ new_precondition_goals.map (fun p => (goal.gid, p.gid))
    let goal := count_new_preconditions goal new_precondition_goals
    let goal := apply_proceed_adjustment goal
    let goal := apply_any_mode goal pgoals new_precondition_goals
    let gs := update_where (fun g => g.gid = goal.gid)
      (fun g => { g with
          waiting_for_count := goal.waiting_for_count,
          waiting_for_not_achieved_count := goal.waiting_for_not_achieved_count,
          waiting_for_failed_count := goal.waiting_for_failed_count }) db.goals
    let db := { db with goals := gs, deps := deps1 }
    let gs2 := update_goals_deadline db.deps (db.goals.length + 1) db.goals
      (new_precondition_goals.map (·.gid)) goal.deadline
    { db with goals := gs2 }

/-- `schedule(func, ...)` from models.py.  `new_gid` stands for the fresh
UUID primary key; `current_goal_deadline` is the thread-local current goal's
deadline when schedule is called from inside a handler, else `none`. -/
def schedule (db : Db) (new_gid : Nat) (now : Int) (handler : String)
    (precondition_date : Option Int) (precondition_goals : Option (List Goal))
    (blocked : Bool) (deadline : Option Int) (current_goal_deadline : Option Int)
    (preconditions_mode : PreconditionsMode)
    (precondition_failure_behavior : PreconditionFailureBehavior)
    (s : Settings) : Db :=
  let st := GoalState.waiting_for_date
  let pd_st : Int × GoalState :=
    match precondition_date with
    | none => (now, .waiting_for_preconditions)
    | some p => (p, st)
  let pgoals := precondition_goals.getD []
  let st := if pgoals.isEmpty ∧ pd_st.2 = .waiting_for_preconditions then
      GoalState.waiting_for_worker
    else pd_st.2
  let st := if blocked then GoalState.blocked else st
  let dl : Int :=
    match deadline, current_goal_deadline with
    | some d, _ => d
    | none, some d => d
    | none, none => now + s.GOALS_DEFAULT_DEADLINE_SECONDS
  let goal : Goal := {
    gid := new_gid, state := st, handler := handler,
    precondition_date := pd_st.1,
    preconditions_mode := preconditions_mode,
    precondition_failure_behavior := precondition_failure_behavior,
    waiting_for_count := 0, waiting_for_not_achieved_count := 0,
    waiting_for_failed_count := 0, deadline := dl, created_at := now }
  let db := { db with goals := db.goals ++ [goal] }
  add_precondition_goals goal (some pgoals) db

/-- `block_goal(goal_id)` from models.py; raising `ValueError` is the error
branch of the `Except`. -/
def block_goal (gid : Nat) (db : Db) : Except String Db :=
  match db.findGoal gid with
  | none => .error "Goal matching query does not exist."
  | some g =>
    if WAITING_STATES.contains g.state then
      .ok (mark_as_failed [gid] .blocked db)
    else .error "Cannot block goal in this state"

/-- `unblock_retry_goal(goal_id)` from models.py. -/
def unblock_retry_goal (gid : Nat) (db : Db) : Except String Db :=
  match db.findGoal gid with
  | none => .error "Goal matching query does not exist."
  | some g =>
    if NOT_GOING_TO_HAPPEN_SOON_STATES.contains g.state then
      .ok (mark_as_unfailed [gid] db)
    else .error "Cannot unblock or retry goal in this state"

/-- The pickup query used to order candidates in
`handle_waiting_for_worker`: the WAITING_FOR_WORKER goal with the lowest
deadline wins (list order breaks ties, standing in for the unspecified SQL
tie order).  The `deadline_horizon` filter is Modelled from the spec: the
threaded worker (goals_threaded_worker.py) calls
`handle_waiting_for_worker(deadline_horizon=...)` and the spec says a
horizon-carrying dispatcher only picks goals with `deadline ≤ now +
horizon`, but the `handle_waiting_for_worker` implementation in the
repository's models.py accepts no such parameter. -/
def pick_goal (deadline_horizon : Option Int) (now : Int) (db : Db) : Option Goal :=
  (db.goals.filter (fun g =>
    g.state == .waiting_for_worker &&
    (match deadline_horizon with
     | none => true
     | some h => decide (g.deadline ≤ now + h)))).foldl
    (fun acc g =>
      match acc with
      | none => some g
      | some b => if g.deadline < b.deadline then some g else acc) none

/-- Count of progress rows of one goal. -/
def progress_count (db : Db) (gid : Nat) : Nat :=
  (db.progress.filter (fun p => p.goal_id == gid)).length

/-- Count of failed progress rows of one goal
(`goal.progress.filter(success=False).count()`). -/
def failed_progress_count (db : Db) (gid : Nat) : Nat :=
  (db.progress.filter (fun p => p.goal_id == gid && p.success == false)).length

/-- `handle_waiting_for_worker()` from models.py, one dispatch step.  The
handler's behaviour arrives as `outcome`; `deadline_horizon` is threaded to
the pickup query (see `pick_goal`).  Returns the updated database and the
created progress row, or `none` when no goal was eligible. -/
def handle_waiting_for_worker (s : Settings) (deadline_horizon : Option Int)
    (now : Int) (outcome : HandlerOutcome) (db : Db) : Db × Option ProgressRec :=
  match pick_goal deadline_horizon now db with
  | none => (db, none)
  | some goal =>
    let step : Bool × String × Goal × Db :=
      match outcome with
      | .raised =>
        let failure_index := failed_progress_count db goal.gid
        (match get_retry_delay s.GOALS_GIVE_UP_AT failure_index with
         | none => (false, "", { goal with state := .given_up }, db)
         | some retry_delay =>
           let goal1 := { goal with state := GoalState.waiting_for_date,
                                    precondition_date := now + retry_delay }
           (false, "", goal1, db))
      | .retry_me_later pd pgs msg =>
        let goal1 := { goal with state := GoalState.waiting_for_date }
        let goal1 := match pd with
          | some p => { goal1 with precondition_date := max goal1.precondition_date p }
          | none => goal1
        (true, msg, goal1, add_precondition_goals goal1 pgs db)
      | .all_done => (true, "", { goal with state := .achieved }, db)
      | .unknown_value => (true, "", { goal with state := .achieved }, db)
    let success := step.1
    let message := step.2.1
    let goal1 := step.2.2.1
    let db1 := step.2.2.2
    let db2 := if goal1.state == GoalState.achieved then
        let gsd := update_where
          (fun g => db1.deps.any (fun e => e.1 = g.gid && e.2 = goal.gid))
          (fun g => { g with
              waiting_for_count := g.waiting_for_count - 1,
              waiting_for_not_achieved_count := g.waiting_for_not_achieved_count - 1 })
          db1.goals
        { db1 with goals := gsd }
      else db1
    let progressRow : ProgressRec :=
      { goal_id := goal.gid, success := success, created_at := now, message := message }
    let db3 := { db2 with progress := db2.progress ++ [progressRow] }
    let goal2 :=
      match s.GOALS_MAX_PROGRESS_COUNT with
      | some max_progress_count =>
        if goal1.state ≠ GoalState.achieved ∧
           max_progress_count ≤ progress_count db3 goal.gid then
          { goal1 with state := GoalState.given_up }
        else goal1
      | none => goal1
    let db4 := if goal2.state == GoalState.given_up then
        mark_as_failed [goal.gid] .given_up db3
      else db3
    let gs5 := update_where (fun g => g.gid = goal.gid)
      (fun g => { g with state := goal2.state,
                         precondition_date := goal2.precondition_date }) db4.goals
    ({ db4 with goals := gs5 }, some progressRow)

/-- `remove_old_goals(now)` from models.py: with retention configured,
delete up to 100 old ACHIEVED goals and their dependency edges (and, by FK
cascade, their progress and pickup rows); a PROTECT reference from outside
the engine aborts the whole batch transaction, which returns 0. -/
def remove_old_goals (s : Settings) (now : Int) (db : Db) : Db × Nat :=
  match s.GOALS_RETENTION_SECONDS with
  | none => (db, 0)
  | some retention_seconds =>
    let ids : List Nat := ((db.goals.filter (fun g =>
      g.state == .achieved &&
      decide (g.created_at < now - retention_seconds))).map (·.gid)).take 100
    if ids.isEmpty then (db, 0)
    else if ids.any (fun i => db.externally_protected.contains i) then (db, 0)
    else
      let deps1 := db.deps.filter (fun e => !(ids.contains e.2))
      let deps2 := deps1.filter (fun e => !(ids.contains e.1))
      ({ db with
          goals := db.goals.filter (fun g => !(ids.contains g.gid)),
          deps := deps2,
          progress := db.progress.filter (fun p => !(ids.contains p.goal_id)),
          pickups := db.pickups.filter (fun p => !(ids.contains p.goal_id)) },
       ids.length)

/-- The transitions half of `worker_turn` (busy_worker.py): one pass of
t_date, t_precond, t_precond_failed, t_unblock, with the summed transition
count. -/
def transitions_pass (now : Int) (db : Db) : Db × Nat :=
  let r1 := handle_waiting_for_date now db
  let r2 := handle_waiting_for_preconditions r1.1
  let r3 := handle_waiting_for_failed_preconditions r2.1
  let r4 := handle_unblocked_goals r3.1
  (r4.1, r1.2 + r2.2 + r3.2 + r4.2)

/-- `n` repetitions of the transitions pass at a fixed clock. -/
def transitions_iter (now : Int) : Nat → Db → Db
  | 0, db => db
  | n + 1, db => transitions_iter now n (transitions_pass now db).1

/-- `Middleware.__call__` from pickups.py.  When the goal's pickup count has
reached GOALS_MAX_PICKUPS the source executes
`_mark_as_failed([goal.id], target_state=GoalState.IT_IS_A_KILLER_TASK)`;
`GoalState` has no member of that name (see `GoalState`), so evaluating the
argument raises `AttributeError` before anything is written — modelled as
the `Except.error` branch.  Otherwise the wrapped pursue function runs. -/
def middleware_call (wrapped : Db → Goal → Int → Db × Option ProgressRec)
    (GOALS_MAX_PICKUPS : Option Nat) (db : Db) (goal : Goal) (now : Int) :
    Except String (Db × Option ProgressRec) :=
  match GOALS_MAX_PICKUPS with
  | some m =>
    if m ≤ (db.pickups.filter (fun p => p.goal_id == goal.gid)).length then
      .error "AttributeError: type object GoalState has no attribute IT_IS_A_KILLER_TASK"
    else .ok (wrapped db goal now)
  | none => .ok (wrapped db goal now)

/-! ## Infrastructure lemmas -/

/-- A goal-table UPDATE leaves primary keys in place, so a lookup after the
update is the per-row update of the lookup. -/
theorem find?_gid_update_where (p : Goal → Bool) (f : Goal → Goal)
    (hf : ∀ g, (f g).gid = g.gid) (gs : List Goal) (i : Nat) :
    (update_where p f gs).find? (fun g => g.gid = i) =
      (gs.find? (fun g => g.gid = i)).map (fun g => if p g then f g else g) := by
  induction gs with
  | nil => rfl
  | cons g gs ih =>
    have hgid : (if p g then f g else g).gid = g.gid := by
      by_cases hp : p g <;> simp [hp, hf]
    by_cases h : g.gid = i
    · rw [update_where, List.map_cons]
      rw [List.find?_cons_of_pos _ (by simpa [hgid]), List.find?_cons_of_pos _ (by simpa)]
      rfl
    · rw [update_where, List.map_cons]
      rw [List.find?_cons_of_neg _ (by simpa [hgid]), List.find?_cons_of_neg _ (by simpa)]
      exact ih

/-- A found row is a member satisfying the predicate. -/
theorem find?_gid_mem {gs : List Goal} {i : Nat} {g : Goal}
    (h : gs.find? (fun g => g.gid = i) = some g) : g ∈ gs ∧ g.gid = i := by
  refine ⟨List.mem_of_find?_eq_some h, ?_⟩
  have := List.find?_some h
  simpa using this

/-- The goal picked by the dispatch query is a WAITING_FOR_WORKER row of the
database. -/
theorem pick_goal_mem {deadline_horizon : Option Int} {now : Int} {db : Db} {g : Goal}
    (h : pick_goal deadline_horizon now db = some g) :
    g ∈ db.goals ∧ g.state = .waiting_for_worker := by
  unfold pick_goal at h
  have main : ∀ (l : List Goal) (acc : Option Goal),
      (∀ b, acc = some b → b ∈ db.goals ∧ b.state = .waiting_for_worker) →
      (∀ x ∈ l, x ∈ db.goals ∧ x.state = .waiting_for_worker) →
      l.foldl (fun acc g =>
        match acc with
        | none => some g
        | some b => if g.deadline < b.deadline then some g else acc) acc = some g →
      g ∈ db.goals ∧ g.state = .waiting_for_worker := by
    intro l
    induction l with
    | nil =>
      intro acc hacc _ hfold
      exact hacc g hfold
    | cons x l ih =>
      intro acc hacc hl hfold
      refine ih _ ?_ (fun y hy => hl y (List.mem_cons_of_mem _ hy)) hfold
      intro b hb
      match acc with
      | none =>
        simp only at hb
        cases hb
        exact hl x (List.mem_cons_self _ _)
      | some a =>
        simp only at hb
        by_cases hlt : x.deadline < a.deadline
        · rw [if_pos hlt] at hb
          cases hb
          exact hl x (List.mem_cons_self _ _)
        · rw [if_neg hlt] at hb
          cases hb
          exact hacc _ rfl
  refine main _ none (by intro b hb; cases hb) ?_ h
  intro x hx
  have hmem := List.mem_filter.mp hx
  refine ⟨hmem.1, ?_⟩
  have := hmem.2
  simp only [Bool.and_eq_true, beq_iff_eq] at this
  exact this.1

/-- Row relation: `b` agrees with `a` on every column except possibly
`deadline`. -/
def dl_only (a b : Goal) : Prop := b = { a with deadline := b.deadline }

theorem dl_only_refl (a : Goal) : dl_only a a := rfl

theorem dl_only_trans {a b c : Goal} (h1 : dl_only a b) (h2 : dl_only b c) :
    dl_only a c := by
  unfold dl_only at *
  rw [h2, h1]

/-- Row relation used for `_add_precondition_goals`: the row of `gid0` may
change its three waiting counters and its deadline, every other row at most
its deadline. -/
def add_row_rel (gid0 : Nat) (a b : Goal) : Prop :=
  if a.gid = gid0 then
    b = { a with waiting_for_count := b.waiting_for_count,
                 waiting_for_not_achieved_count := b.waiting_for_not_achieved_count,
                 waiting_for_failed_count := b.waiting_for_failed_count,
                 deadline := b.deadline }
  else dl_only a b

theorem add_row_rel_gid {gid0 : Nat} {a b : Goal} (h : add_row_rel gid0 a b) :
    b.gid = a.gid := by
  unfold add_row_rel at h
  split_ifs at h <;> rw [h]

theorem dl_only_gid {a b : Goal} (h : dl_only a b) : b.gid = a.gid := by
  rw [h]

/-- Transport `Forall₂` along a pointwise map. -/
theorem forall2_map_self {R : Goal → Goal → Prop} {l : List Goal} {f : Goal → Goal}
    (h : ∀ a ∈ l, R a (f a)) : List.Forall₂ R l (l.map f) := by
  induction l with
  | nil => exact List.Forall₂.nil
  | cons x l ih =>
    exact List.Forall₂.cons (h x (List.mem_cons_self _ _))
      (ih (fun a ha => h a (List.mem_cons_of_mem _ ha)))

/-- Composition of `Forall₂` relations. -/
theorem forall2_comp {R S T : Goal → Goal → Prop}
    (h : ∀ a b c, R a b → S b c → T a c) :
    ∀ {l1 l2 l3 : List Goal}, List.Forall₂ R l1 l2 → List.Forall₂ S l2 l3 →
      List.Forall₂ T l1 l3 := by
  intro l1 l2 l3 h12 h23
  induction h12 generalizing l3 with
  | nil => cases h23; exact List.Forall₂.nil
  | cons hab hrest ih =>
    cases h23 with
    | cons hbc hrest2 => exact List.Forall₂.cons (h _ _ _ hab hbc) (ih hrest2)

theorem forall2_dl_only_trans {l1 l2 l3 : List Goal}
    (h12 : List.Forall₂ dl_only l1 l2) (h23 : List.Forall₂ dl_only l2 l3) :
    List.Forall₂ dl_only l1 l3 :=
  forall2_comp (fun (a b c : Goal) (hab : dl_only a b) (hbc : dl_only b c) =>
    dl_only_trans hab hbc) h12 h23

theorem forall2_refl {R : Goal → Goal → Prop} (h : ∀ a, R a a) (l : List Goal) :
    List.Forall₂ R l l := by
  induction l with
  | nil => exact List.Forall₂.nil
  | cons x l ih => exact List.Forall₂.cons (h x) ih

/-- Lookups through a gid-preserving `Forall₂`. -/
theorem forall2_find? {R : Goal → Goal → Prop}
    (hgid : ∀ a b, R a b → b.gid = a.gid) {gs gs' : List Goal}
    (h : List.Forall₂ R gs gs') (i : Nat) {g : Goal}
    (hfind : gs.find? (fun g => g.gid = i) = some g) :
    ∃ g', gs'.find? (fun g => g.gid = i) = some g' ∧ R g g' := by
  induction h with
  | nil => simp at hfind
  | cons hab hrest ih =>
    rename_i a b l1 l2
    by_cases hi : a.gid = i
    · rw [List.find?_cons_of_pos _ (by simpa)] at hfind
      cases hfind
      refine ⟨b, ?_, hab⟩
      rw [List.find?_cons_of_pos _ (by simp [hgid _ _ hab, hi])]
    · rw [List.find?_cons_of_neg _ (by simpa)] at hfind
      obtain ⟨g', hg', hr⟩ := ih hfind
      refine ⟨g', ?_, hr⟩
      rw [List.find?_cons_of_neg _ (by simp [hgid _ _ hab, hi])]
      exact hg'

/-- Folding a step that respects a reflexive transitive relation. -/
theorem foldl_rel {α β : Type} {R : α → α → Prop}
    (hrefl : ∀ x, R x x)
    (htrans : ∀ {x y z}, R x y → R y z → R x z)
    (step : α → β → α)
    (h : ∀ acc b, R acc (step acc b)) :
    ∀ (l : List β) (acc : α), R acc (l.foldl step acc) := by
  intro l
  induction l with
  | nil => intro acc; exact hrefl acc
  | cons b l ih =>
    intro acc
    exact htrans (h acc b) (ih (step acc b))

/-- `update_goals_deadline` touches only deadlines. -/
theorem update_goals_deadline_dl_only (deps : List (Nat × Nat)) :
    ∀ (fuel : Nat) (gs : List Goal) (ids : List Nat) (d : Int),
      List.Forall₂ dl_only gs (update_goals_deadline deps fuel gs ids d) := by
  intro fuel
  induction fuel with
  | zero => intro gs ids d; exact forall2_refl dl_only_refl gs
  | succ fuel ih =>
    intro gs ids d
    rw [update_goals_deadline]
    have hfold : ∀ (l : List Nat) (acc : List Goal),
        List.Forall₂ dl_only acc (l.foldl (fun acc i =>
          update_goals_deadline deps fuel acc (precond_ids deps i) d) acc) := by
      intro l
      induction l with
      | nil => intro acc; exact forall2_refl dl_only_refl acc
      | cons i l ihl =>
        intro acc
        exact forall2_dl_only_trans (ih acc _ d) (ihl _)
    refine forall2_dl_only_trans (forall2_map_self (fun a _ => ?_)) (hfold _ _)
    unfold dl_only
    split_ifs <;> rfl

/-- Row relation: `b` agrees with `a` everywhere except possibly the three
waiting counters. -/
def counters_only (a b : Goal) : Prop :=
  b = { a with waiting_for_count := b.waiting_for_count,
               waiting_for_not_achieved_count := b.waiting_for_not_achieved_count,
               waiting_for_failed_count := b.waiting_for_failed_count }

theorem counters_only_refl (a : Goal) : counters_only a a := rfl

theorem counters_only_trans {a b c : Goal} (h1 : counters_only a b)
    (h2 : counters_only b c) : counters_only a c := by
  unfold counters_only at *
  rw [h2, h1]

theorem count_new_preconditions_counters (g : Goal) (l : List Goal) :
    counters_only g (count_new_preconditions g l) := by
  unfold count_new_preconditions
  refine foldl_rel counters_only_refl
    (fun h1 h2 => counters_only_trans h1 h2) _ ?_ l g
  intro a p
  unfold counters_only
  split_ifs <;> rfl

theorem apply_proceed_adjustment_counters (g : Goal) :
    counters_only g (apply_proceed_adjustment g) := by
  unfold apply_proceed_adjustment counters_only
  split_ifs <;> rfl

theorem apply_any_cap_counters (g : Goal) :
    counters_only g (apply_any_cap g) := by
  simp only [apply_any_cap]
  unfold counters_only
  split_ifs <;> rfl

theorem apply_any_detection_counters (g : Goal) (pgoals l : List Goal) :
    counters_only g (apply_any_detection g pgoals l) := by
  unfold apply_any_detection
  refine foldl_rel counters_only_refl
    (fun h1 h2 => counters_only_trans h1 h2) _ ?_ l g
  intro a p
  unfold counters_only
  cases pgoals.reverse.find? (fun o => o.gid = p.gid) with
  | none => rfl
  | some orig =>
    simp only
    split_ifs <;> rfl

theorem apply_any_mode_counters (g : Goal) (pgoals l : List Goal) :
    counters_only g (apply_any_mode g pgoals l) := by
  unfold apply_any_mode
  split_ifs with h1
  · exact counters_only_trans (apply_any_cap_counters g)
      (apply_any_detection_counters _ pgoals l)
  · exact counters_only_refl g

/-- The in-memory goal produced by the counter phase of
`_add_precondition_goals` keeps every non-counter column. -/
theorem add_computed_counters (goal : Goal) (pgoals l : List Goal) :
    counters_only goal
      (apply_any_mode (apply_proceed_adjustment
        (count_new_preconditions { goal with waiting_for_count := 0 } l)) pgoals l) := by
  refine counters_only_trans (counters_only_trans (counters_only_trans
    (show counters_only goal { goal with waiting_for_count := 0 } from rfl)
    (count_new_preconditions_counters _ l)) (apply_proceed_adjustment_counters _))
    (apply_any_mode_counters _ pgoals l)

/-- `_add_precondition_goals` changes the three waiting counters only on the
row of the goal it runs for; any other row can change at most its deadline
(through `update_goals_deadline`). -/
theorem add_precondition_goals_rows (goal : Goal) (pgs : Option (List Goal)) (db : Db) :
    List.Forall₂ (add_row_rel goal.gid) db.goals (add_precondition_goals goal pgs db).goals := by
  have hcomp : ∀ a b c, add_row_rel goal.gid a b → dl_only b c → add_row_rel goal.gid a c := by
    intro a b c h1 h2
    unfold add_row_rel at *
    split_ifs at h1 ⊢ with hg
    · rw [h2, h1]
    · exact dl_only_trans h1 h2
  have elem : ∀ (cgid : Nat), cgid = goal.gid → ∀ (w1 w2 w3 : Int),
      ∀ a, add_row_rel goal.gid a (if (a.gid = cgid : Bool) then
        { a with waiting_for_count := w1, waiting_for_not_achieved_count := w2,
                 waiting_for_failed_count := w3 } else a) := by
    intro cgid hg w1 w2 w3 a
    by_cases ha : a.gid = goal.gid
    · rw [if_pos (by simp [hg, ha])]
      unfold add_row_rel
      rw [if_pos ha]
    · rw [if_neg (by simp [hg, ha])]
      unfold add_row_rel
      rw [if_neg ha]
      exact dl_only_refl a
  cases pgs with
  | none =>
    refine forall2_map_self (fun a _ => ?_)
    beta_reduce
    exact elem _ rfl _ _ _ a
  | some pgoals =>
    refine forall2_comp hcomp ?_ (update_goals_deadline_dl_only _ _ _ _ _)
    refine forall2_map_self (fun a _ => ?_)
    beta_reduce
    refine elem _ ?hgs _ _ _ a
    case hgs =>
      have h := add_computed_counters goal pgoals
        (db.goals.filter (fun p => ((pgoals.map (fun x => x.gid)).contains p.gid &&
          !(db.deps.contains (({ goal with waiting_for_count := 0 } : Goal).gid, p.gid)))))
      unfold counters_only at h
      rw [h]

theorem add_precondition_goals_progress (goal : Goal) (pgs : Option (List Goal)) (db : Db) :
    (add_precondition_goals goal pgs db).progress = db.progress := by
  cases pgs <;> rfl

theorem add_precondition_goals_deps_prefix (goal : Goal) (pgs : Option (List Goal)) (db : Db) :
    ∃ extra, (add_precondition_goals goal pgs db).deps = db.deps ++ extra := by
  cases pgs with
  | none => exact ⟨[], by simp [add_precondition_goals]⟩
  | some pgoals => exact ⟨_, rfl⟩

/-! ## C2: dispatch of AllDone (or an unknown value) -/

/-- C2: whenever a dispatch step (`handle_waiting_for_worker`) runs a goal
whose handler returns AllDone or any unknown value, the goal's state becomes
ACHIEVED, a GoalProgress row with success = true is appended (and returned),
and every dependent goal's `waiting_for_count` and
`waiting_for_not_achieved_count` are each decremented by exactly one. -/
theorem C2_dispatch_all_done_achieves (s : Settings) (now : Int) (db : Db)
    (goal : Goal) (outcome : HandlerOutcome)
    (hpick : pick_goal none now db = some goal)
    (hout : outcome = .all_done ∨ outcome = .unknown_value) :
    ((handle_waiting_for_worker s none now outcome db).1.findGoal goal.gid).map
        (fun g => g.state) = some .achieved ∧
    (handle_waiting_for_worker s none now outcome db).1.progress = db.progress ++
      [{ goal_id := goal.gid, success := true, created_at := now, message := "" }] ∧
    (handle_waiting_for_worker s none now outcome db).2 =
      some { goal_id := goal.gid, success := true, created_at := now, message := "" } ∧
    (∀ i g0, (i, goal.gid) ∈ db.deps → db.findGoal i = some g0 →
      ∃ g1, (handle_waiting_for_worker s none now outcome db).1.findGoal i = some g1 ∧
        g1.waiting_for_count = g0.waiting_for_count - 1 ∧
        g1.waiting_for_not_achieved_count = g0.waiting_for_not_achieved_count - 1) := by
  have hreduce :
      handle_waiting_for_worker s none now outcome db =
      (⟨update_where (fun g => g.gid = goal.gid)
          (fun g => { g with state := GoalState.achieved,
                             precondition_date := goal.precondition_date })
          (update_where (fun g => db.deps.any (fun e => e.1 = g.gid && e.2 = goal.gid))
            (fun g => { g with
                waiting_for_count := g.waiting_for_count - 1,
                waiting_for_not_achieved_count := g.waiting_for_not_achieved_count - 1 })
            db.goals),
        db.deps,
        db.progress ++ [{ goal_id := goal.gid, success := true, created_at := now,
                          message := "" }],
        db.pickups, db.externally_protected⟩,
       some { goal_id := goal.gid, success := true, created_at := now, message := "" }) := by
    rcases hout with rfl | rfl <;>
    · simp only [handle_waiting_for_worker, hpick]
      cases hm : s.GOALS_MAX_PROGRESS_COUNT <;> simp
  rw [hreduce]
  refine ⟨?_, rfl, rfl, ?_⟩
  · show ((update_where _ _ _).find? (fun g => g.gid = goal.gid)).map _ = _
    rw [find?_gid_update_where, find?_gid_update_where]
    rotate_left
    · exact fun g => rfl
    · exact fun g => rfl
    have hmem := pick_goal_mem hpick
    have hfind : ∃ g0, db.goals.find? (fun g => g.gid = goal.gid) = some g0 := by
      match hfg : db.goals.find? (fun g => g.gid = goal.gid) with
      | some g0 => exact ⟨g0, hfg⟩
      | none =>
        have := List.find?_eq_none.mp hfg goal hmem.1
        simp at this
    obtain ⟨g0, hg0⟩ := hfind
    rw [hg0]
    have hgid2 : g0.gid = goal.gid := (find?_gid_mem hg0).2
    simp only [Option.map_some']
    split_ifs <;> simp_all
  · intro i g0 hedge hfind
    show ∃ g1, (update_where _ _ _).find? (fun g => g.gid = i) = some g1 ∧ _
    rw [find?_gid_update_where, find?_gid_update_where]
    rotate_left
    · exact fun g => rfl
    · exact fun g => rfl
    rw [show db.goals.find? (fun g => g.gid = i) = some g0 from hfind]
    have hgid : g0.gid = i := (find?_gid_mem hfind).2
    have hdep : (db.deps.any (fun e => e.1 = g0.gid && e.2 = goal.gid)) = true := by
      rw [List.any_eq_true]
      exact ⟨(i, goal.gid), hedge, by simp [hgid]⟩
    refine ⟨_, rfl, ?_⟩
    simp only [hdep]
    by_cases hsave : g0.gid = goal.gid <;> simp [hsave]

/-! ## C3: retry schedule on handler exception -/

/-- The max-progress-count test of step 6 of the dispatch: with the cap
configured, does a progress-row count of `c` reach it? -/
def mpc_hit (s : Settings) (c : Nat) : Bool :=
  match s.GOALS_MAX_PROGRESS_COUNT with
  | none => false
  | some m => m ≤ c

/-- Appending the new progress row bumps the goal's progress count by one. -/
theorem progress_count_snoc (db : Db) (row : ProgressRec) (i : Nat)
    (h : row.goal_id = i) :
    progress_count { db with progress := db.progress ++ [row] } i =
      progress_count db i + 1 := by
  simp [progress_count, List.filter_append, h]

/-- C3 (amended): for every dispatch of a goal whose handler raises, with n
the count of prior failed GoalProgress rows: if `n + 1 ≥ give_up_at` the
goal transitions to GIVEN_UP keeping its precondition_date, with
failure-like dependent bookkeeping; otherwise its precondition_date is set
to `now + 10s·2^n` and it transitions to WAITING_FOR_DATE — unless the
appended progress row brings the goal's progress count to
max_progress_count, in which case the state is overridden to GIVEN_UP
(again with dependent bookkeeping).  A failed progress row is recorded in
every case. -/
theorem C3_retry_schedule (s : Settings) (now : Int) (db : Db) (goal : Goal)
    (hpick : pick_goal none now db = some goal) :
    ((handle_waiting_for_worker s none now .raised db).1.findGoal goal.gid).map
        (fun g => (g.state, g.precondition_date)) =
      some (if s.GOALS_GIVE_UP_AT ≤ failed_progress_count db goal.gid + 1 then
              (GoalState.given_up, goal.precondition_date)
            else if mpc_hit s (progress_count db goal.gid + 1) then
              (GoalState.given_up,
               now + 10 * (2 : Int) ^ failed_progress_count db goal.gid)
            else (GoalState.waiting_for_date,
               now + 10 * (2 : Int) ^ failed_progress_count db goal.gid)) ∧
    (handle_waiting_for_worker s none now .raised db).2 =
      some { goal_id := goal.gid, success := false, created_at := now, message := "" } ∧
    ((s.GOALS_GIVE_UP_AT ≤ failed_progress_count db goal.gid + 1 ∨
        mpc_hit s (progress_count db goal.gid + 1) = true) →
      ∀ i g0, (i, goal.gid) ∈ db.deps → db.findGoal i = some g0 →
        ∃ g1, (handle_waiting_for_worker s none now .raised db).1.findGoal i = some g1 ∧
          g1.waiting_for_failed_count = g0.waiting_for_failed_count + 1 ∧
          (g0.precondition_failure_behavior = .proceed →
            g1.waiting_for_count = g0.waiting_for_count - 1)) := by
  have hmem := pick_goal_mem hpick
  have hfind : ∃ gp, db.goals.find? (fun g => g.gid = goal.gid) = some gp := by
    match hfg : db.goals.find? (fun g => g.gid = goal.gid) with
    | some gp => exact ⟨gp, hfg⟩
    | none =>
      have := List.find?_eq_none.mp hfg goal hmem.1
      simp at this
  set n := failed_progress_count db goal.gid with hn
  set row : ProgressRec :=
    { goal_id := goal.gid, success := false, created_at := now, message := "" } with hrow
  set db3 : Db := { db with progress := db.progress ++ [row] } with hdb3
  have hc3 : progress_count db3 goal.gid = progress_count db goal.gid + 1 :=
    progress_count_snoc db row goal.gid rfl
  by_cases hgu : s.GOALS_GIVE_UP_AT ≤ n + 1
  · -- retries exhausted: GIVEN_UP
    have hrd : get_retry_delay s.GOALS_GIVE_UP_AT n = none := by
      simp [get_retry_delay, hgu]
    have hred : handle_waiting_for_worker s none now .raised db =
        ({ (mark_as_failed [goal.gid] .given_up db3) with
            goals := update_where (fun g => g.gid = goal.gid)
              (fun g => { g with state := GoalState.given_up,
                                 precondition_date := goal.precondition_date })
              (mark_as_failed [goal.gid] .given_up db3).goals }, some row) := by
      simp only [handle_waiting_for_worker, hpick, ← hn, hrd]
      cases hm : s.GOALS_MAX_PROGRESS_COUNT <;> simp [hdb3, hrow]
    rw [hred]
    clear hred
    obtain ⟨gp, hgp⟩ := hfind
    have hgpgid : gp.gid = goal.gid := (find?_gid_mem hgp).2
    refine ⟨?_, rfl, ?_⟩
    · rw [if_pos hgu]
      show ((update_where _ _ (mark_as_failed [goal.gid] .given_up db3).goals).find?
        (fun g => g.gid = goal.gid)).map _ = _
      simp only [mark_as_failed, List.isEmpty_cons, Bool.false_eq_true, if_false]
      rw [find?_gid_update_where, find?_gid_update_where, find?_gid_update_where,
        find?_gid_update_where]
      rotate_left
      · exact fun g => rfl
      · exact fun g => rfl
      · exact fun g => rfl
      · exact fun g => rfl
      show (Option.map _ ((db3.goals.find? _).map _ |>.map _ |>.map _)).map _ = _
      have : db3.goals.find? (fun g => g.gid = goal.gid) = some gp := hgp
      rw [this]
      simp only [Option.map_some']
      split_ifs <;> simp_all
    · intro hcond i g0 hedge hfindi
      show ∃ g1, ((update_where _ _ (mark_as_failed [goal.gid] .given_up db3).goals).find?
        (fun g => g.gid = i)) = some g1 ∧ _
      simp only [mark_as_failed, List.isEmpty_cons, Bool.false_eq_true, if_false]
      rw [find?_gid_update_where, find?_gid_update_where, find?_gid_update_where,
        find?_gid_update_where]
      rotate_left
      · exact fun g => rfl
      · exact fun g => rfl
      · exact fun g => rfl
      · exact fun g => rfl
      have : db3.goals.find? (fun g => g.gid = i) = some g0 := hfindi
      rw [this]
      have hgid0 : g0.gid = i := (find?_gid_mem hfindi).2
      have hdepAll : ∀ x : Goal, x.gid = g0.gid →
          is_dependent_on db.deps [goal.gid] x = true := by
        intro x hx
        simp only [is_dependent_on, List.any_eq_true]
        exact ⟨(i, goal.gid), hedge, by simp [hx, hgid0]⟩
      simp only [Option.map_some']
      refine ⟨_, rfl, ?_⟩
      by_cases hsave : g0.gid = goal.gid <;>
        by_cases hbeh : g0.precondition_failure_behavior = PreconditionFailureBehavior.proceed <;>
        simp [hsave, hbeh, hdepAll]
  · -- normal retry path
    have hrd : get_retry_delay s.GOALS_GIVE_UP_AT n = some (10 * (2 : Int) ^ n) := by
      simp [get_retry_delay, hgu]
    by_cases hmp : mpc_hit s (progress_count db goal.gid + 1) = true
    · -- max-progress-count flip to GIVEN_UP
      obtain ⟨m, hm, hmc⟩ : ∃ m, s.GOALS_MAX_PROGRESS_COUNT = some m ∧
          m ≤ progress_count db goal.gid + 1 := by
        unfold mpc_hit at hmp
        cases hsm : s.GOALS_MAX_PROGRESS_COUNT with
        | none => rw [hsm] at hmp; simp at hmp
        | some m => rw [hsm] at hmp; exact ⟨m, rfl, by simpa using hmp⟩
      have hred : handle_waiting_for_worker s none now .raised db =
          ({ (mark_as_failed [goal.gid] .given_up db3) with
              goals := update_where (fun g => g.gid = goal.gid)
                (fun g => { g with state := GoalState.given_up,
                                   precondition_date := now + 10 * (2 : Int) ^ n })
                (mark_as_failed [goal.gid] .given_up db3).goals }, some row) := by
        have hmcL : m ≤ progress_count { db with progress := db.progress ++ [row] } goal.gid := by
          rw [progress_count_snoc db row goal.gid rfl]; exact hmc
        simp only [handle_waiting_for_worker, hpick, ← hn, hrd, hm]
        simp [hdb3, hrow, hmcL]
      rw [hred]
      clear hred
      obtain ⟨gp, hgp⟩ := hfind
      have hgpgid : gp.gid = goal.gid := (find?_gid_mem hgp).2
      refine ⟨?_, rfl, ?_⟩
      · rw [if_neg hgu, if_pos hmp]
        show ((update_where _ _ (mark_as_failed [goal.gid] .given_up db3).goals).find?
          (fun g => g.gid = goal.gid)).map _ = _
        simp only [mark_as_failed, List.isEmpty_cons, Bool.false_eq_true, if_false]
        rw [find?_gid_update_where, find?_gid_update_where, find?_gid_update_where,
          find?_gid_update_where]
        rotate_left
        · exact fun g => rfl
        · exact fun g => rfl
        · exact fun g => rfl
        · exact fun g => rfl
        have : db3.goals.find? (fun g => g.gid = goal.gid) = some gp := hgp
        rw [this]
        simp only [Option.map_some']
        split_ifs <;> simp_all
      · intro hcond i g0 hedge hfindi
        show ∃ g1, ((update_where _ _ (mark_as_failed [goal.gid] .given_up db3).goals).find?
          (fun g => g.gid = i)) = some g1 ∧ _
        simp only [mark_as_failed, List.isEmpty_cons, Bool.false_eq_true, if_false]
        rw [find?_gid_update_where, find?_gid_update_where, find?_gid_update_where,
          find?_gid_update_where]
        rotate_left
        · exact fun g => rfl
        · exact fun g => rfl
        · exact fun g => rfl
        · exact fun g => rfl
        have : db3.goals.find? (fun g => g.gid = i) = some g0 := hfindi
        rw [this]
        have hgid0 : g0.gid = i := (find?_gid_mem hfindi).2
        have hdepAll : ∀ x : Goal, x.gid = g0.gid →
            is_dependent_on db.deps [goal.gid] x = true := by
          intro x hx
          simp only [is_dependent_on, List.any_eq_true]
          exact ⟨(i, goal.gid), hedge, by simp [hx, hgid0]⟩
        simp only [Option.map_some']
        refine ⟨_, rfl, ?_⟩
        by_cases hsave : g0.gid = goal.gid <;>
          by_cases hbeh : g0.precondition_failure_behavior = PreconditionFailureBehavior.proceed <;>
          simp [hsave, hbeh, hdepAll]
    · -- plain retry: WAITING_FOR_DATE with exponential backoff
      have hred : handle_waiting_for_worker s none now .raised db =
          ({ db3 with
              goals := update_where (fun g => g.gid = goal.gid)
                (fun g => { g with state := GoalState.waiting_for_date,
                                   precondition_date := now + 10 * (2 : Int) ^ n })
                db3.goals }, some row) := by
        simp only [handle_waiting_for_worker, hpick, ← hn, hrd]
        cases hsm : s.GOALS_MAX_PROGRESS_COUNT with
        | none => simp [hdb3, hrow]
        | some m =>
          have hnmL : ¬ (m ≤ progress_count { db with progress := db.progress ++ [row] } goal.gid) := by
            rw [progress_count_snoc db row goal.gid rfl]
            intro hcontra
            exact hmp (by simp [mpc_hit, hsm]; exact hcontra)
          simp [hdb3, hrow, hnmL]
      rw [hred]
      clear hred
      obtain ⟨gp, hgp⟩ := hfind
      have hgpgid : gp.gid = goal.gid := (find?_gid_mem hgp).2
      refine ⟨?_, rfl, ?_⟩
      · rw [if_neg hgu, if_neg (by simpa using hmp)]
        show ((update_where _ _ db3.goals).find? (fun g => g.gid = goal.gid)).map _ = _
        rw [find?_gid_update_where]
        rotate_left
        · exact fun g => rfl
        have : db3.goals.find? (fun g => g.gid = goal.gid) = some gp := hgp
        rw [this]
        simp only [Option.map_some']
        split_ifs <;> simp_all
      · intro hcond
        rcases hcond with hcond | hcond
        · exact absurd hcond hgu
        · exact absurd hcond hmp

/-! ## Concrete example databases used by the witnesses -/

/-- A plain WAITING_FOR_WORKER goal. -/
def exWorker : Goal :=
  { gid := 1, state := .waiting_for_worker, precondition_date := 0,
    preconditions_mode := .all, precondition_failure_behavior := .block,
    waiting_for_count := 0, waiting_for_not_achieved_count := 0,
    waiting_for_failed_count := 0, deadline := 0, created_at := 0 }

/-- A goal waiting on `exWorker`. -/
def exDependent : Goal :=
  { exWorker with gid := 2, state := .waiting_for_preconditions,
                  waiting_for_count := 1, waiting_for_not_achieved_count := 1 }

/-- Two goals with one dependency edge. -/
def exDb : Db := { goals := [exWorker, exDependent], deps := [(2, 1)] }

/-- C2 witness: dispatching `exWorker` with an AllDone handler achieves it,
appends one success row and decrements the dependent's counters. -/
theorem C2_witness :
    ((handle_waiting_for_worker {} none 0 .all_done exDb).1.findGoal exWorker.gid).map
        (fun g => g.state) = some GoalState.achieved ∧
    (handle_waiting_for_worker {} none 0 .all_done exDb).1.progress = exDb.progress ++
      [{ goal_id := exWorker.gid, success := true, created_at := 0, message := "" }] ∧
    (handle_waiting_for_worker {} none 0 .all_done exDb).2 =
      some { goal_id := exWorker.gid, success := true, created_at := 0, message := "" } ∧
    (∀ i g0, (i, exWorker.gid) ∈ exDb.deps → exDb.findGoal i = some g0 →
      ∃ g1, (handle_waiting_for_worker {} none 0 .all_done exDb).1.findGoal i = some g1 ∧
        g1.waiting_for_count = g0.waiting_for_count - 1 ∧
        g1.waiting_for_not_achieved_count = g0.waiting_for_not_achieved_count - 1) :=
  C2_dispatch_all_done_achieves {} 0 exDb exWorker .all_done (by decide) (Or.inl rfl)

/-- C3 counterexample: with GOALS_MAX_PROGRESS_COUNT = 1 and give_up_at at
its default 4, a first handler exception (n = 0, so n + 1 < give_up_at)
leaves the goal GIVEN_UP, not WAITING_FOR_DATE as the claim requires. -/
theorem C3_counterexample :
    failed_progress_count { goals := [exWorker] } exWorker.gid = 0 ∧
    0 + 1 < ({ GOALS_MAX_PROGRESS_COUNT := some 1 } : Settings).GOALS_GIVE_UP_AT ∧
    ((handle_waiting_for_worker ({ GOALS_MAX_PROGRESS_COUNT := some 1 } : Settings)
        none 0 .raised { goals := [exWorker] }).1.findGoal exWorker.gid).map
        (fun g => g.state) = some GoalState.given_up ∧
    ((handle_waiting_for_worker ({ GOALS_MAX_PROGRESS_COUNT := some 1 } : Settings)
        none 0 .raised { goals := [exWorker] }).1.findGoal exWorker.gid).map
        (fun g => g.state) ≠ some GoalState.waiting_for_date := by decide

/-- C3 witness: with default settings a first exception sets the goal back
to WAITING_FOR_DATE with precondition_date now + 10s. -/
theorem C3_witness :
    pick_goal none 0 ({ goals := [exWorker] } : Db) = some exWorker ∧
    ((handle_waiting_for_worker {} none 0 .raised { goals := [exWorker] }).1.findGoal
        exWorker.gid).map (fun g => (g.state, g.precondition_date)) =
      some (GoalState.waiting_for_date, 10) :=
  ⟨by decide, by
    rw [(C3_retry_schedule {} 0 { goals := [exWorker] } exWorker (by decide)).1]
    decide⟩

/-! ## C4: the max-progress-count override -/

/-- Proof scaffolding: the tail of `handle_waiting_for_worker` behind a
successful RetryMeLater return, once the in-memory goal has been set to
WAITING_FOR_DATE and its precondition_date resolved into `goal1`.  Mirrors
the tail of the dispatch definition statement for statement. -/
def dispatch_retry_tail (s : Settings) (now : Int) (db : Db) (goal goal1 : Goal)
    (pgs : Option (List Goal)) (msg : String) : Db × Option ProgressRec :=
  let db1 := add_precondition_goals goal1 pgs db
  let db2 := if goal1.state == GoalState.achieved then
      let gsd := update_where
        (fun g => db1.deps.any (fun e => e.1 = g.gid && e.2 = goal.gid))
        (fun g => { g with
            waiting_for_count := g.waiting_for_count - 1,
            waiting_for_not_achieved_count := g.waiting_for_not_achieved_count - 1 })
        db1.goals
      { db1 with goals := gsd }
    else db1
  let progressRow : ProgressRec :=
    { goal_id := goal.gid, success := true, created_at := now, message := msg }
  let db3 := { db2 with progress := db2.progress ++ [progressRow] }
  let goal2 :=
    match s.GOALS_MAX_PROGRESS_COUNT with
    | some max_progress_count =>
      if goal1.state ≠ GoalState.achieved ∧
         max_progress_count ≤ progress_count db3 goal.gid then
        { goal1 with state := GoalState.given_up }
      else goal1
    | none => goal1
  let db4 := if goal2.state == GoalState.given_up then
      mark_as_failed [goal.gid] .given_up db3
    else db3
  let gs5 := update_where (fun g => g.gid = goal.gid)
    (fun g => { g with state := goal2.state,
                       precondition_date := goal2.precondition_date }) db4.goals
  ({ db4 with goals := gs5 }, some progressRow)

/-- A RetryMeLater dispatch is the retry tail at the normalised goal. -/
theorem dispatch_retry_eq (s : Settings) (now : Int) (db : Db) (goal : Goal)
    (pd : Option Int) (pgs : Option (List Goal)) (msg : String)
    (hpick : pick_goal none now db = some goal) :
    handle_waiting_for_worker s none now (.retry_me_later pd pgs msg) db =
      dispatch_retry_tail s now db goal
        (match pd with
         | some p => { goal with state := GoalState.waiting_for_date,
                                 precondition_date := max goal.precondition_date p }
         | none => { goal with state := GoalState.waiting_for_date }) pgs msg := by
  cases pd <;> simp only [handle_waiting_for_worker, hpick, dispatch_retry_tail]

/-- C4 (amended): after the dispatch step appends its GoalProgress row, the
cap check counts the rows including the just-appended one: with
max_progress_count = m and a non-ACHIEVED outcome (here the
success-equivalent RetryMeLater), the state is overridden to GIVEN_UP (with
dependents' waiting_for_failed_count bumped) exactly when
prior rows + 1 ≥ m — one attempt earlier than the claim's 'prior rows ≥ m'
reading; when prior rows + 1 < m the goal stays WAITING_FOR_DATE. -/
theorem C4_max_progress_flip (s : Settings) (now : Int) (db : Db) (goal : Goal)
    (pd : Option Int) (pgs : Option (List Goal)) (msg : String)
    (hpick : pick_goal none now db = some goal) (m : Nat)
    (hm : s.GOALS_MAX_PROGRESS_COUNT = some m) :
    (m ≤ progress_count db goal.gid + 1 →
      ((handle_waiting_for_worker s none now (.retry_me_later pd pgs msg) db).1.findGoal
          goal.gid).map (fun g => g.state) = some GoalState.given_up ∧
      (∀ i g0, (i, goal.gid) ∈ db.deps → db.findGoal i = some g0 → i ≠ goal.gid →
        ∃ g1, (handle_waiting_for_worker s none now
            (.retry_me_later pd pgs msg) db).1.findGoal i = some g1 ∧
          g1.waiting_for_failed_count = g0.waiting_for_failed_count + 1)) ∧
    (progress_count db goal.gid + 1 < m →
      ((handle_waiting_for_worker s none now (.retry_me_later pd pgs msg) db).1.findGoal
          goal.gid).map (fun g => g.state) = some GoalState.waiting_for_date) := by
  rw [dispatch_retry_eq s now db goal pd pgs msg hpick]
  set goal1 : Goal := (match pd with
    | some p => { goal with state := GoalState.waiting_for_date,
                            precondition_date := max goal.precondition_date p }
    | none => { goal with state := GoalState.waiting_for_date }) with hgoal1
  have hstate1 : goal1.state = GoalState.waiting_for_date := by
    rw [hgoal1]; cases pd <;> rfl
  have hgid1 : goal1.gid = goal.gid := by
    rw [hgoal1]; cases pd <;> rfl
  set db1 : Db := add_precondition_goals goal1 pgs db with hdb1
  have hprog1 : db1.progress = db.progress := add_precondition_goals_progress goal1 pgs db
  have hrows : List.Forall₂ (add_row_rel goal1.gid) db.goals db1.goals :=
    add_precondition_goals_rows goal1 pgs db
  obtain ⟨extra, hdeps1⟩ := add_precondition_goals_deps_prefix goal1 pgs db
  have hb2cond : (goal1.state == GoalState.achieved) = false := by rw [hstate1]; rfl
  set row : ProgressRec :=
    { goal_id := goal.gid, success := true, created_at := now, message := msg } with hrow
  have hcnt : progress_count { db1 with progress := db1.progress ++ [row] } goal.gid =
      progress_count db goal.gid + 1 := by
    simp [progress_count, hprog1, List.filter_append, hrow]
  have hmem := pick_goal_mem hpick
  have hfind : ∃ gp, db.goals.find? (fun g => g.gid = goal.gid) = some gp := by
    match hfg : db.goals.find? (fun g => g.gid = goal.gid) with
    | some gp => exact ⟨gp, hfg⟩
    | none =>
      have := List.find?_eq_none.mp hfg goal hmem.1
      simp at this
  obtain ⟨gp, hgp⟩ := hfind
  obtain ⟨gq, hgq, hrelq⟩ := forall2_find?
    (fun a b h => add_row_rel_gid h) hrows goal.gid hgp
  have hgqgid : gq.gid = goal.gid := by
    rw [add_row_rel_gid hrelq]
    exact (find?_gid_mem hgp).2
  constructor
  · -- flip to GIVEN_UP
    intro hflip
    have hred : dispatch_retry_tail s now db goal goal1 pgs msg =
        ({ (mark_as_failed [goal.gid] .given_up { db1 with progress := db1.progress ++ [row] }) with
            goals := update_where (fun g => g.gid = goal.gid)
              (fun g => { g with state := GoalState.given_up,
                                 precondition_date := goal1.precondition_date })
              (mark_as_failed [goal.gid] .given_up
                { db1 with progress := db1.progress ++ [row] }).goals }, some row) := by
      have hcondT : goal1.state ≠ GoalState.achieved ∧
          m ≤ progress_count { db1 with progress := db1.progress ++ [row] } goal.gid :=
        ⟨by rw [hstate1]; simp, by rw [hcnt]; exact hflip⟩
      simp only [dispatch_retry_tail, hm, hb2cond, Bool.false_eq_true, if_false, ← hdb1, ← hrow]
      rw [if_pos hcondT]
      simp
    rw [hred]
    clear hred
    constructor
    · show ((update_where _ _ (mark_as_failed [goal.gid] .given_up _).goals).find?
        (fun g => g.gid = goal.gid)).map _ = _
      simp only [mark_as_failed, List.isEmpty_cons, Bool.false_eq_true, if_false]
      rw [find?_gid_update_where, find?_gid_update_where, find?_gid_update_where,
        find?_gid_update_where]
      rotate_left
      · exact fun g => rfl
      · exact fun g => rfl
      · exact fun g => rfl
      · exact fun g => rfl
      have : ({ db1 with progress := db1.progress ++ [row] } : Db).goals.find?
          (fun g => g.gid = goal.gid) = some gq := hgq
      rw [this]
      simp only [Option.map_some']
      split_ifs <;> simp_all
    · intro i g0 hedge hfindi hne
      obtain ⟨gq0, hgq0, hrel0⟩ := forall2_find?
        (fun a b h => add_row_rel_gid h) hrows i hfindi
      have hgid0 : g0.gid = i := (find?_gid_mem hfindi).2
      have hdl0 : dl_only g0 gq0 := by
        have h := hrel0
        unfold add_row_rel at h
        rw [if_neg (by rw [hgid0, hgid1]; exact hne)] at h
        exact h
      have hq_gid : gq0.gid = g0.gid := dl_only_gid hdl0
      have hq_wffc : gq0.waiting_for_failed_count = g0.waiting_for_failed_count := by
        rw [hdl0]
      have hq_st : gq0.state = g0.state := by rw [hdl0]
      have hdepAll : ∀ x : Goal, x.gid = g0.gid →
          is_dependent_on ({ db1 with progress := db1.progress ++ [row] } : Db).deps
            [goal.gid] x = true := by
        intro x hx
        show is_dependent_on db1.deps [goal.gid] x = true
        rw [hdeps1]
        simp only [is_dependent_on, List.any_eq_true]
        exact ⟨(i, goal.gid), by simp [List.mem_append]; exact Or.inl hedge,
          by simp [hx, hgid0]⟩
      show ∃ g1, ((update_where _ _ (mark_as_failed [goal.gid] .given_up _).goals).find?
        (fun g => g.gid = i)) = some g1 ∧ _
      simp only [mark_as_failed, List.isEmpty_cons, Bool.false_eq_true, if_false]
      rw [find?_gid_update_where, find?_gid_update_where, find?_gid_update_where,
        find?_gid_update_where]
      rotate_left
      · exact fun g => rfl
      · exact fun g => rfl
      · exact fun g => rfl
      · exact fun g => rfl
      have : ({ db1 with progress := db1.progress ++ [row] } : Db).goals.find?
          (fun g => g.gid = i) = some gq0 := hgq0
      rw [this]
      simp only [Option.map_some']
      refine ⟨_, rfl, ?_⟩
      have hnotin : (([goal.gid] : List Nat).contains gq0.gid) = false := by
        simp [hq_gid, hgid0]
        exact hne
      by_cases hbeh : gq0.precondition_failure_behavior = PreconditionFailureBehavior.proceed <;>
        simp [hnotin, hbeh, hdepAll, hq_gid, hq_wffc, hgid0, hne]
  · -- below the cap: plain WAITING_FOR_DATE
    intro hbelow
    have hred : dispatch_retry_tail s now db goal goal1 pgs msg =
        ({ ({ db1 with progress := db1.progress ++ [row] } : Db) with
            goals := update_where (fun g => g.gid = goal.gid)
              (fun g => { g with state := goal1.state,
                                 precondition_date := goal1.precondition_date })
              ({ db1 with progress := db1.progress ++ [row] } : Db).goals }, some row) := by
      have hcondF : ¬ (goal1.state ≠ GoalState.achieved ∧
          m ≤ progress_count { db1 with progress := db1.progress ++ [row] } goal.gid) := by
        intro h
        have h2 := h.2
        rw [hcnt] at h2
        omega
      simp only [dispatch_retry_tail, hm, hb2cond, Bool.false_eq_true, if_false, ← hdb1, ← hrow]
      rw [if_neg hcondF]
      have hfin : (goal1.state == GoalState.given_up) = false := by rw [hstate1]; rfl
      rw [hfin]
      simp
    rw [hred]
    clear hred
    show ((update_where _ _ _).find? (fun g => g.gid = goal.gid)).map _ = _
    rw [find?_gid_update_where]
    rotate_left
    · exact fun g => rfl
    have : ({ db1 with progress := db1.progress ++ [row] } : Db).goals.find?
        (fun g => g.gid = goal.gid) = some gq := hgq
    rw [this]
    simp only [Option.map_some']
    split_ifs <;> simp_all

/-- One WAITING_FOR_WORKER goal with a single (successful) progress row. -/
def exDbOneRow : Db :=
  { goals := [exWorker],
    progress := [{ goal_id := 1, success := true, created_at := 0 }] }

/-- C4 counterexample: with max_progress_count = 2 and exactly one prior
progress row (1 < 2, so the claim's 'prior rows ≥ cap' test says no
override), a RetryMeLater dispatch nevertheless flips the goal to
GIVEN_UP, because the code counts the just-appended row as well. -/
theorem C4_counterexample :
    progress_count exDbOneRow exWorker.gid = 1 ∧
    (1 < 2) ∧
    ((handle_waiting_for_worker ({ GOALS_MAX_PROGRESS_COUNT := some 2 } : Settings)
        none 0 (.retry_me_later none (some []) "") exDbOneRow).1.findGoal
        exWorker.gid).map (fun g => g.state) = some GoalState.given_up ∧
    ((handle_waiting_for_worker ({ GOALS_MAX_PROGRESS_COUNT := some 2 } : Settings)
        none 0 (.retry_me_later none (some []) "") exDbOneRow).1.findGoal
        exWorker.gid).map (fun g => g.state) ≠ some GoalState.waiting_for_date := by
  decide

/-- C4 witness: with max_progress_count = 2 and no prior rows the same
dispatch leaves the goal in WAITING_FOR_DATE. -/
theorem C4_witness :
    ((handle_waiting_for_worker ({ GOALS_MAX_PROGRESS_COUNT := some 2 } : Settings) none 0
        (.retry_me_later none (some []) "") { goals := [exWorker] }).1.findGoal
        exWorker.gid).map (fun g => g.state) = some GoalState.waiting_for_date :=
  (C4_max_progress_flip { GOALS_MAX_PROGRESS_COUNT := some 2 } 0 { goals := [exWorker] }
    exWorker none (some []) "" (by decide) 2 rfl).2 (by decide)

/-! ## C5: the deadline horizon -/

/-- The combining step of the dispatch pickup query's `order_by('deadline')
... first()`: keep the candidate with the smaller deadline, earlier rows
winning ties. -/
def pickF (acc : Option Goal) (g : Goal) : Option Goal :=
  match acc with
  | none => some g
  | some b => if g.deadline < b.deadline then some g else acc

theorem pick_goal_eq_fold (dh : Option Int) (now : Int) (db : Db) :
    pick_goal dh now db = (db.goals.filter (fun g =>
      g.state == .waiting_for_worker &&
      (match dh with
       | none => true
       | some h => decide (g.deadline ≤ now + h)))).foldl pickF none := rfl

theorem pickF_fold_mem (g : Goal) : ∀ (l : List Goal) (acc : Option Goal),
    l.foldl pickF acc = some g → g ∈ l ∨ acc = some g := by
  intro l
  induction l with
  | nil => intro acc h; exact Or.inr h
  | cons x t ih =>
    intro acc h
    rcases ih (pickF acc x) h with hg | hg
    · exact Or.inl (List.mem_cons_of_mem x hg)
    · match acc with
      | none =>
        simp only [pickF] at hg
        cases hg
        exact Or.inl (List.mem_cons_self _ _)
      | some b =>
        simp only [pickF] at hg
        by_cases hlt : x.deadline < b.deadline
        · rw [if_pos hlt] at hg
          cases hg
          exact Or.inl (List.mem_cons_self _ _)
        · rw [if_neg hlt] at hg
          exact Or.inr hg

theorem pick_fold_keeps (g : Goal) (t : List Goal)
    (h : ∀ x ∈ t, x ≠ g → g.deadline < x.deadline) :
    t.foldl pickF (some g) = some g := by
  induction t with
  | nil => rfl
  | cons x t ih =>
    have hx : ¬ x.deadline < g.deadline := by
      by_cases hxg : x = g
      · rw [hxg]; omega
      · have := h x (List.mem_cons_self x t) hxg; omega
    simp only [List.foldl_cons, pickF, if_neg hx]
    exact ih (fun y hy => h y (List.mem_cons_of_mem x hy))

theorem pick_fold_min (g : Goal) : ∀ (l : List Goal), g ∈ l →
    (∀ x ∈ l, x ≠ g → g.deadline < x.deadline) →
    ∀ acc : Option Goal,
      (acc = none ∨ acc = some g ∨ ∃ b, acc = some b ∧ g.deadline < b.deadline) →
      l.foldl pickF acc = some g := by
  intro l
  induction l with
  | nil => intro hmem; exact absurd hmem (List.not_mem_nil g)
  | cons x t ih =>
    intro hmem hmin acc hacc
    rw [List.foldl_cons]
    by_cases hxg : x = g
    · subst hxg
      have hstep : pickF acc x = some x := by
        rcases hacc with h | h | ⟨b, hb, hlt⟩
        · rw [h]; rfl
        · rw [h]; simp [pickF]
        · rw [hb]; simp only [pickF]; rw [if_pos hlt]
      rw [hstep]
      exact pick_fold_keeps x t (fun y hy hne =>
        hmin y (List.mem_cons_of_mem x hy) hne)
    · have hgt : g ∈ t := by
        rcases List.mem_cons.mp hmem with hh | hh
        · exact absurd hh.symm hxg
        · exact hh
      have hxdl : g.deadline < x.deadline := hmin x (List.mem_cons_self x t) hxg
      apply ih hgt (fun y hy => hmin y (List.mem_cons_of_mem x hy))
      rcases hacc with h | h | ⟨b, hb, hlt⟩
      · rw [h]; exact Or.inr (Or.inr ⟨x, rfl, hxdl⟩)
      · rw [h]; simp only [pickF]
        rw [if_neg (by omega)]
        exact Or.inr (Or.inl rfl)
      · rw [hb]; simp only [pickF]
        by_cases hc : x.deadline < b.deadline
        · rw [if_pos hc]; exact Or.inr (Or.inr ⟨x, rfl, hxdl⟩)
        · rw [if_neg hc]; exact Or.inr (Or.inr ⟨b, rfl, hlt⟩)

/-- C5: a WAITING_FOR_WORKER goal whose deadline lies beyond `now + h` is
never returned by a pickup with horizon `h`, while the pickup without a
horizon returns it whenever it has the strictly smallest deadline among
eligible goals. -/
theorem C5_deadline_horizon (db : Db) (g : Goal) (now h : Int)
    (hmem : g ∈ db.goals) (hst : g.state = .waiting_for_worker) :
    (now + h < g.deadline → pick_goal (some h) now db ≠ some g) ∧
    ((∀ x ∈ db.goals, x.state = .waiting_for_worker → x ≠ g →
        g.deadline < x.deadline) →
      pick_goal none now db = some g) := by
  constructor
  · intro hfar hpick
    rw [pick_goal_eq_fold] at hpick
    rcases pickF_fold_mem g _ none hpick with hgf | hgf
    · have hcond := (List.mem_filter.mp hgf).2
      simp only [Bool.and_eq_true, decide_eq_true_eq] at hcond
      omega
    · cases hgf
  · intro hmin
    rw [pick_goal_eq_fold]
    apply pick_fold_min g _ ?_ ?_ none (Or.inl rfl)
    · apply List.mem_filter.mpr
      refine ⟨hmem, ?_⟩
      rw [hst]
      rfl
    · intro x hx hne
      have hxm := List.mem_filter.mp hx
      have hcond := hxm.2
      simp only [Bool.and_eq_true, beq_iff_eq] at hcond
      exact hmin x hxm.1 hcond.1 hne

/-- C5 witness: of two eligible goals with deadlines 100 and 5 at time 0,
a horizon of 10 excludes the former, while no horizon picks the one with
the smallest deadline. -/
theorem C5_witness :
    (0 + 10 < 100 ∧
      pick_goal (some 10) 0 { goals := [{ exWorker with deadline := 100 },
        { exWorker with gid := 2, deadline := 5 }] } ≠
        some { exWorker with deadline := 100 }) ∧
    pick_goal none 0 { goals := [{ exWorker with deadline := 100 },
      { exWorker with gid := 2, deadline := 5 }] } =
      some { exWorker with gid := 2, deadline := 5 } :=
  ⟨⟨by decide,
    (C5_deadline_horizon { goals := [{ exWorker with deadline := 100 },
        { exWorker with gid := 2, deadline := 5 }] } { exWorker with deadline := 100 }
      0 10 (by decide) rfl).1 (by decide)⟩,
   (C5_deadline_horizon { goals := [{ exWorker with deadline := 100 },
        { exWorker with gid := 2, deadline := 5 }] } { exWorker with gid := 2, deadline := 5 }
      0 10 (by decide) rfl).2 (by decide)⟩

/-! ## C6: the killer-task pickup middleware -/

/-- A goal the killer-task middleware examines. -/
def exKiller : Goal := { exWorker with gid := 7 }

/-- C6: with GOALS_MAX_PICKUPS = 1 and one existing pickup row, the
middleware takes the killer-task branch; the source there evaluates
`GoalState.IT_IS_A_KILLER_TASK`, which does not exist, so instead of
marking the goal failed the call raises AttributeError before writing
anything, for every wrapped pursue function (which is never invoked). -/
theorem C6_killer_task_attribute_error :
    ∀ wrapped : Db → Goal → Int → Db × Option ProgressRec,
      middleware_call wrapped (some 1)
        { goals := [exKiller], pickups := [{ goal_id := 7 }] } exKiller 0 =
      .error "AttributeError: type object GoalState has no attribute IT_IS_A_KILLER_TASK" := by
  intro wrapped
  rfl

/-! ## C8: repeated transition passes -/

theorem t_date_zero (now : Int) (db : Db)
    (h : (handle_waiting_for_date now db).2 = 0) :
    (handle_waiting_for_date now db).1 = db := by
  have hids : (db.goals.filter (fun g =>
      g.state == .waiting_for_date && decide (g.precondition_date ≤ now))).map (·.gid) = [] :=
    List.length_eq_zero.mp h
  simp only [handle_waiting_for_date]
  rw [hids]
  simp [update_where]

theorem t_precond_zero (db : Db)
    (h : (handle_waiting_for_preconditions db).2 = 0) :
    (handle_waiting_for_preconditions db).1 = db := by
  have hids : (db.goals.filter (fun g =>
      g.state == .waiting_for_preconditions && decide (g.waiting_for_count ≤ 0))).map (·.gid) = [] :=
    List.length_eq_zero.mp h
  simp only [handle_waiting_for_preconditions]
  rw [hids]
  simp [update_where]

theorem t_pfailed_zero (db : Db)
    (h : (handle_waiting_for_failed_preconditions db).2 = 0) :
    (handle_waiting_for_failed_preconditions db).1 = db := by
  have hids : (db.goals.filter (fun g =>
      g.state == .waiting_for_preconditions &&
      g.precondition_failure_behavior == .block &&
      decide (0 < g.waiting_for_failed_count))).map (·.gid) = [] :=
    List.length_eq_zero.mp h
  simp only [handle_waiting_for_failed_preconditions]
  rw [hids]
  rfl

theorem t_unblock_zero (db : Db)
    (h : (handle_unblocked_goals db).2 = 0) :
    (handle_unblocked_goals db).1 = db := by
  have hids : (db.goals.filter (fun g =>
      g.state == .not_going_to_happen_soon &&
      decide (g.waiting_for_failed_count ≤ 0))).map (·.gid) = [] :=
    List.length_eq_zero.mp h
  simp only [handle_unblocked_goals]
  rw [hids]
  rfl

theorem transitions_pass_zero (now : Int) (db : Db)
    (h : (transitions_pass now db).2 = 0) : (transitions_pass now db).1 = db := by
  unfold transitions_pass at h ⊢
  simp only at h ⊢
  have e1 : (handle_waiting_for_date now db).1 = db := t_date_zero now db (by omega)
  rw [e1] at h ⊢
  have e2 : (handle_waiting_for_preconditions db).1 = db := t_precond_zero db (by omega)
  rw [e2] at h ⊢
  have e3 : (handle_waiting_for_failed_preconditions db).1 = db :=
    t_pfailed_zero db (by omega)
  rw [e3] at h ⊢
  exact t_unblock_zero db (by omega)

/-- A goal parked in NOT_GOING_TO_HAPPEN_SOON with no failed preconditions
left. -/
def exNgths : Goal := { exWorker with state := .not_going_to_happen_soon }

/-- C8 counterexample: unblocking a NOT_GOING_TO_HAPPEN_SOON goal in pass
one only sends it back to WAITING_FOR_DATE, so the second pass still
performs two transitions (to WAITING_FOR_PRECONDITIONS and then
WAITING_FOR_WORKER) and changes the database again. -/
theorem C8_counterexample :
    (transitions_pass 0 { goals := [exNgths] }).2 = 1 ∧
    (transitions_pass 0 (transitions_pass 0 { goals := [exNgths] }).1).2 = 2 ∧
    (transitions_pass 0 (transitions_pass 0 { goals := [exNgths] }).1).1 ≠
      (transitions_pass 0 { goals := [exNgths] }).1 := by decide

/-- C8 (amended): a transitions pass that reports zero transitions leaves
the database unchanged, and from then on every further pass is a no-op; a
single pass is not in general enough, because unblocking only reaches
WAITING_FOR_DATE (see the counterexample). -/
theorem C8_transitions_fixed_point (now : Int) (db : Db)
    (h : (transitions_pass now db).2 = 0) :
    (transitions_pass now db).1 = db ∧ ∀ n, transitions_iter now n db = db := by
  have e := transitions_pass_zero now db h
  refine ⟨e, ?_⟩
  intro n
  induction n with
  | zero => rfl
  | succ n ih => simp only [transitions_iter, e, ih]

/-- A database of one achieved goal, already a fixed point of the
transitions loop. -/
def exAchievedDb : Db := { goals := [{ exWorker with state := .achieved }] }

/-- C8 witness: on a database whose only goal is achieved, the pass counts
zero transitions and every iterate returns the database unchanged. -/
theorem C8_witness :
    (transitions_pass 0 exAchievedDb).2 = 0 ∧
    (transitions_pass 0 exAchievedDb).1 = exAchievedDb ∧
    transitions_iter 0 5 exAchievedDb = exAchievedDb :=
  ⟨by decide, (C8_transitions_fixed_point 0 exAchievedDb (by decide)).1,
   (C8_transitions_fixed_point 0 exAchievedDb (by decide)).2 5⟩

/-! ## C9: the retention pass -/

/-- C9: with retention configured the pass deletes at most 100 goals, only
achieved ones older than the window (given unique primary keys), keeps only
pre-existing rows and edges, drops every edge touching a deleted goal,
returns the database unchanged whenever it reports 0 (the batch is atomic),
refuses the whole batch when a selected goal is externally protected, and a
null retention setting disables deletion entirely. -/
theorem C9_retention (s : Settings) (now : Int) (db : Db)
    (hnodup : (db.goals.map (·.gid)).Nodup) :
    (s.GOALS_RETENTION_SECONDS = none → remove_old_goals s now db = (db, 0)) ∧
    ∀ ret, s.GOALS_RETENTION_SECONDS = some ret →
      (remove_old_goals s now db).2 ≤ 100 ∧
      ((remove_old_goals s now db).2 = 0 → (remove_old_goals s now db).1 = db) ∧
      (∀ g ∈ db.goals, g ∉ (remove_old_goals s now db).1.goals →
        g.state = .achieved ∧ g.created_at < now - ret) ∧
      (∀ g ∈ (remove_old_goals s now db).1.goals, g ∈ db.goals) ∧
      (∀ e ∈ (remove_old_goals s now db).1.deps, e ∈ db.deps) ∧
      (∀ g, g ∈ db.goals → g ∉ (remove_old_goals s now db).1.goals →
        ∀ e ∈ (remove_old_goals s now db).1.deps, e.1 ≠ g.gid ∧ e.2 ≠ g.gid) ∧
      ((((db.goals.filter (fun g => g.state == .achieved &&
            decide (g.created_at < now - ret))).map (·.gid)).take 100).any
          (fun i => db.externally_protected.contains i) = true →
        remove_old_goals s now db = (db, 0)) := by
  constructor
  · intro h
    simp only [remove_old_goals, h]
  · intro ret h
    simp only [remove_old_goals, h]
    set ids := ((db.goals.filter (fun g => g.state == .achieved &&
      decide (g.created_at < now - ret))).map (·.gid)).take 100 with hids
    by_cases hemp : ids.isEmpty = true
    · rw [if_pos hemp]
      exact ⟨Nat.zero_le 100, fun _ => rfl, fun g hg hng => (hng hg).elim,
        fun g hg => hg, fun e he => he, fun g hg hng => (hng hg).elim, fun _ => rfl⟩
    · rw [if_neg hemp]
      by_cases hprot : ids.any (fun i => db.externally_protected.contains i) = true
      · rw [if_pos hprot]
        exact ⟨Nat.zero_le 100, fun _ => rfl, fun g hg hng => (hng hg).elim,
          fun g hg => hg, fun e he => he, fun g hg hng => (hng hg).elim, fun _ => rfl⟩
      · rw [if_neg hprot]
        have key : ∀ g ∈ db.goals,
            g ∉ db.goals.filter (fun g => !(ids.contains g.gid)) →
            ids.contains g.gid = true := by
          intro g hg hng
          by_contra hc
          have hfalse : ids.contains g.gid = false := by
            revert hc
            cases ids.contains g.gid <;> simp
          refine hng (List.mem_filter.mpr ⟨hg, ?_⟩)
          show (!ids.contains g.gid) = true
          rw [hfalse]
          rfl
        refine ⟨?_, ?_, ?_, ?_, ?_, ?_, ?_⟩
        · rw [hids]
          exact List.length_take_le 100 _
        · intro h0
          exfalso
          rw [List.length_eq_zero] at h0
          exact hemp (by rw [h0]; rfl)
        · intro g hg hng
          have hcontains := key g hg hng
          have hmemids : g.gid ∈ ids := by simpa using hcontains
          have hmemmap : g.gid ∈ (db.goals.filter (fun g => g.state == .achieved &&
              decide (g.created_at < now - ret))).map (·.gid) := by
            rw [hids] at hmemids
            exact List.take_subset _ _ hmemids
          obtain ⟨g1, hg1mem, hg1gid⟩ := List.mem_map.mp hmemmap
          have hg1db := List.mem_of_mem_filter hg1mem
          have heq : g1 = g := List.inj_on_of_nodup_map hnodup hg1db hg hg1gid
          rw [heq] at hg1mem
          have hcond := (List.mem_filter.mp hg1mem).2
          simp only [Bool.and_eq_true, beq_iff_eq, decide_eq_true_eq] at hcond
          exact hcond
        · intro g hg
          exact List.mem_of_mem_filter hg
        · intro e he
          exact List.mem_of_mem_filter (List.mem_of_mem_filter he)
        · intro g hg hng e he
          have hcontains := key g hg hng
          have houter := (List.mem_filter.mp he).2
          have hinner := (List.mem_filter.mp (List.mem_of_mem_filter he : e ∈ _)).2
          have h1 : ids.contains e.1 = false := by
            revert houter
            cases ids.contains e.1 <;> simp
          have h2 : ids.contains e.2 = false := by
            revert hinner
            cases ids.contains e.2 <;> simp
          constructor
          · intro heq
            rw [heq, hcontains] at h1
            cases h1
          · intro heq
            rw [heq, hcontains] at h2
            cases h2
        · intro hany
          exact absurd hany hprot

/-- Two goals, one old and achieved, one live, with a dependency edge. -/
def exOldDb : Db :=
  { goals := [{ exWorker with state := .achieved, created_at := -1000 },
              { exWorker with gid := 2 }],
    deps := [(2, 1)] }

/-- C9 witness: with a 10-second window at time 0 the pass deletes the old
achieved goal and its edge, keeping the live goal. -/
theorem C9_witness :
    (remove_old_goals ({ GOALS_RETENTION_SECONDS := some 10 } : Settings) 0 exOldDb).2 ≤ 100 ∧
    (remove_old_goals ({ GOALS_RETENTION_SECONDS := some 10 } : Settings) 0 exOldDb).1.goals =
      [{ exWorker with gid := 2 }] ∧
    (remove_old_goals ({ GOALS_RETENTION_SECONDS := some 10 } : Settings) 0 exOldDb).1.deps = [] :=
  ⟨((C9_retention { GOALS_RETENTION_SECONDS := some 10 } 0 exOldDb (by decide)).2 10 rfl).1,
   by decide, by decide⟩

/-! ## C10: idempotence of adding precondition goals -/

theorem update_goals_deadline_nil (deps : List (Nat × Nat)) (fuel : Nat)
    (gs : List Goal) (d : Int) :
    update_goals_deadline deps fuel gs [] d = gs := by
  cases fuel with
  | zero => rfl
  | succ n => simp [update_goals_deadline, update_where]

/-- Row relation: `b` agrees with `a` on every column except possibly
`waiting_for_count`. -/
def wfc_only (a b : Goal) : Prop :=
  b = { a with waiting_for_count := b.waiting_for_count }

theorem wfc_only_refl (a : Goal) : wfc_only a a := rfl

theorem wfc_only_trans {a b c : Goal} (h1 : wfc_only a b) (h2 : wfc_only b c) :
    wfc_only a c := by
  unfold wfc_only at *
  rw [h2, h1]

theorem apply_proceed_adjustment_wfc_only (g : Goal) :
    wfc_only g (apply_proceed_adjustment g) := by
  unfold apply_proceed_adjustment wfc_only
  split_ifs <;> rfl

theorem apply_any_cap_wfc_only (g : Goal) :
    wfc_only g (apply_any_cap g) := by
  simp only [apply_any_cap]
  unfold wfc_only
  split_ifs <;> rfl

theorem apply_any_detection_wfc_only (g : Goal) (pgoals l : List Goal) :
    wfc_only g (apply_any_detection g pgoals l) := by
  unfold apply_any_detection
  refine foldl_rel wfc_only_refl (fun h1 h2 => wfc_only_trans h1 h2) _ ?_ l g
  intro a p
  unfold wfc_only
  cases pgoals.reverse.find? (fun o => o.gid = p.gid) with
  | none => rfl
  | some orig =>
    simp only
    split_ifs <;> rfl

theorem apply_any_mode_wfc_only (g : Goal) (pgoals l : List Goal) :
    wfc_only g (apply_any_mode g pgoals l) := by
  unfold apply_any_mode
  split_ifs with h1
  · exact wfc_only_trans (apply_any_cap_wfc_only g)
      (apply_any_detection_wfc_only _ pgoals l)
  · exact wfc_only_refl g

/-- With no newly linked preconditions, the counter phase can change only
`waiting_for_count` of the in-memory goal. -/
theorem add_computed_wfc_only (goal : Goal) (pgoals : List Goal) :
    wfc_only goal
      (apply_any_mode (apply_proceed_adjustment
        (count_new_preconditions { goal with waiting_for_count := 0 } [])) pgoals []) := by
  refine wfc_only_trans (wfc_only_trans (wfc_only_trans
    (show wfc_only goal { goal with waiting_for_count := 0 } from rfl)
    (show wfc_only { goal with waiting_for_count := 0 }
      (count_new_preconditions { goal with waiting_for_count := 0 } []) from rfl))
    (apply_proceed_adjustment_wfc_only _))
    (apply_any_mode_wfc_only _ pgoals [])

/-- One step of the stale-observation detection loop of
`_add_precondition_goals` (an abbreviation for its loop body). -/
def any_detection_step (pgoals : List Goal) (a p : Goal) : Goal :=
  match pgoals.reverse.find? (fun o => o.gid = p.gid) with
  | some orig =>
    if (orig.state ≠ GoalState.achieved ∧ p.state = GoalState.achieved) ∨
       (a.precondition_failure_behavior = .proceed ∧
        ¬ NOT_GOING_TO_HAPPEN_SOON_STATES.contains orig.state ∧
        NOT_GOING_TO_HAPPEN_SOON_STATES.contains p.state) then
      { a with waiting_for_count := 0 }
    else a
  | none => a

theorem apply_any_detection_eq_foldl (a : Goal) (pgoals l : List Goal) :
    apply_any_detection a pgoals l = l.foldl (any_detection_step pgoals) a := rfl

theorem any_detection_congr (P Q : List Goal)
    (hfind : ∀ i : Nat, Q.reverse.find? (fun o => o.gid = i) =
      P.reverse.find? (fun o => o.gid = i)) :
    ∀ (l : List Goal) (a : Goal),
      l.foldl (any_detection_step Q) a = l.foldl (any_detection_step P) a := by
  intro l
  induction l with
  | nil => intro a; rfl
  | cons x t ih =>
    intro a
    rw [List.foldl_cons, List.foldl_cons]
    have hstep : any_detection_step Q a x = any_detection_step P a x := by
      unfold any_detection_step
      rw [hfind x.gid]
    rw [hstep]
    exact ih _

/-- C10: when every supplied precondition already has its edge, the call
adds no edge and leaves the dependent row's `waiting_for_not_achieved_count`
and `waiting_for_failed_count` at the in-memory goal's values; and supplying
the same precondition list twice gives exactly the same database as
supplying it once, so no increment is ever applied twice. -/
theorem C10_add_preconditions_idempotent (goal : Goal) (P : List Goal) (db : Db) :
    ((∀ p ∈ P, (goal.gid, p.gid) ∈ db.deps) →
      (add_precondition_goals goal (some P) db).deps = db.deps ∧
      ∀ g0, db.findGoal goal.gid = some g0 →
        ∃ g1, (add_precondition_goals goal (some P) db).findGoal goal.gid = some g1 ∧
          g1.waiting_for_not_achieved_count = goal.waiting_for_not_achieved_count ∧
          g1.waiting_for_failed_count = goal.waiting_for_failed_count) ∧
    add_precondition_goals goal (some (P ++ P)) db = add_precondition_goals goal (some P) db := by
  constructor
  · intro hedges
    have hnewnil : db.goals.filter (fun p => ((P.map (·.gid)).contains p.gid &&
        !(db.deps.contains (({ goal with waiting_for_count := 0 } : Goal).gid, p.gid)))) = [] := by
      rw [List.filter_eq_nil]
      intro p hp
      simp only [Bool.and_eq_true, Bool.not_eq_true', not_and]
      intro hpid
      have hpmem : p.gid ∈ P.map (·.gid) := by simpa using hpid
      obtain ⟨q, hq, hqgid⟩ := List.mem_map.mp hpmem
      have hin : (goal.gid, p.gid) ∈ db.deps := by
        rw [← hqgid]
        exact hedges q hq
      have hcont : db.deps.contains
          (({ goal with waiting_for_count := 0 } : Goal).gid, p.gid) = true := by
        show db.deps.contains (goal.gid, p.gid) = true
        simpa using hin
      simpa using hin
    constructor
    · simp only [add_precondition_goals]
      rw [hnewnil]
      simp
    · intro g0 hg0
      have hg0f : db.goals.find? (fun g => g.gid = goal.gid) = some g0 := hg0
      have hg0gid : g0.gid = goal.gid := (find?_gid_mem hg0f).2
      simp only [add_precondition_goals]
      rw [hnewnil]
      simp only [List.map_nil, List.append_nil]
      rw [update_goals_deadline_nil]
      have hwo := add_computed_wfc_only goal P
      simp only [Db.findGoal]
      rw [find?_gid_update_where]
      rotate_left
      · exact fun g => rfl
      rw [hg0f]
      simp only [Option.map_some']
      refine ⟨_, rfl, ?_, ?_⟩
      · rw [if_pos (show (g0.gid = (apply_any_mode (apply_proceed_adjustment
            (count_new_preconditions { goal with waiting_for_count := 0 } [])) P []).gid : Bool)
            = true by
          rw [hwo]
          simp [hg0gid])]
        show (apply_any_mode (apply_proceed_adjustment
          (count_new_preconditions { goal with waiting_for_count := 0 } [])) P
            []).waiting_for_not_achieved_count = goal.waiting_for_not_achieved_count
        rw [hwo]
      · rw [if_pos (show (g0.gid = (apply_any_mode (apply_proceed_adjustment
            (count_new_preconditions { goal with waiting_for_count := 0 } [])) P []).gid : Bool)
            = true by
          rw [hwo]
          simp [hg0gid])]
        show (apply_any_mode (apply_proceed_adjustment
          (count_new_preconditions { goal with waiting_for_count := 0 } [])) P
            []).waiting_for_failed_count = goal.waiting_for_failed_count
        rw [hwo]
  · have hcont : ∀ x : Nat,
        ((P ++ P).map (·.gid)).contains x = (P.map (·.gid)).contains x := by
      intro x
      by_cases hx : x ∈ P.map (·.gid)
      · have h1 : (P.map (·.gid)).contains x = true := by simpa using hx
        have h2 : ((P ++ P).map (·.gid)).contains x = true := by simpa using hx
        rw [h1, h2]
      · have h1 : (P.map (·.gid)).contains x = false := by simpa using hx
        have h2 : ((P ++ P).map (·.gid)).contains x = false := by simpa using hx
        rw [h1, h2]
    have hfind : ∀ i : Nat, (P ++ P).reverse.find? (fun o => o.gid = i) =
        P.reverse.find? (fun o => o.gid = i) := by
      intro i
      rw [List.reverse_append, List.find?_append]
      cases hf : P.reverse.find? (fun o => o.gid = i) with
      | none => simp [hf]
      | some v => simp [hf]
    have hnew : db.goals.filter (fun p => (((P ++ P).map (·.gid)).contains p.gid &&
        !(db.deps.contains (({ goal with waiting_for_count := 0 } : Goal).gid, p.gid)))) =
      db.goals.filter (fun p => ((P.map (·.gid)).contains p.gid &&
        !(db.deps.contains (({ goal with waiting_for_count := 0 } : Goal).gid, p.gid)))) := by
      apply List.filter_congr
      intro p hp
      rw [hcont p.gid]
    have hmode : ∀ (g : Goal) (l : List Goal),
        apply_any_mode g (P ++ P) l = apply_any_mode g P l := by
      intro g l
      unfold apply_any_mode
      split_ifs with h
      · rw [apply_any_detection_eq_foldl, apply_any_detection_eq_foldl]
        exact any_detection_congr P (P ++ P) hfind l _
      · rfl
    simp only [add_precondition_goals]
    rw [hnew, hmode]

/-- C10 witness: re-adding `exWorker` (already linked) to `exDependent`
creates no edge and keeps the counters, and a duplicated list acts once. -/
theorem C10_witness :
    (add_precondition_goals exDependent (some [exWorker]) exDb).deps = exDb.deps ∧
    (∃ g1, (add_precondition_goals exDependent (some [exWorker]) exDb).findGoal
        exDependent.gid = some g1 ∧
      g1.waiting_for_not_achieved_count = exDependent.waiting_for_not_achieved_count ∧
      g1.waiting_for_failed_count = exDependent.waiting_for_failed_count) ∧
    add_precondition_goals exDependent (some ([exWorker] ++ [exWorker])) exDb =
      add_precondition_goals exDependent (some [exWorker]) exDb :=
  ⟨((C10_add_preconditions_idempotent exDependent [exWorker] exDb).1 (by decide)).1,
   ((C10_add_preconditions_idempotent exDependent [exWorker] exDb).1 (by decide)).2
     exDependent (by decide),
   (C10_add_preconditions_idempotent exDependent [exWorker] exDb).2⟩

/-! ## C1: the WAITING_FOR_WORKER / ALL invariant -/

theorem forall2_mem_right {R : Goal → Goal → Prop} :
    ∀ {l1 l2 : List Goal}, List.Forall₂ R l1 l2 → ∀ b ∈ l2, ∃ a ∈ l1, R a b := by
  intro l1 l2 h
  induction h with
  | nil => intro b hb; cases hb
  | cons hab hrest ih =>
    intro b hb
    rcases List.mem_cons.mp hb with hh | hh
    · exact ⟨_, List.mem_cons_self _ _, hh ▸ hab⟩
    · obtain ⟨a, ha, hr⟩ := ih b hh
      exact ⟨a, List.mem_cons_of_mem _ ha, hr⟩

theorem forall2_gid_map {R : Goal → Goal → Prop}
    (hgid : ∀ a b, R a b → b.gid = a.gid) :
    ∀ {l1 l2 : List Goal}, List.Forall₂ R l1 l2 →
      l2.map (·.gid) = l1.map (·.gid) := by
  intro l1 l2 h
  induction h with
  | nil => rfl
  | cons hab hrest ih => simp [ih, hgid _ _ hab]

/-- Row relation for `_mark_as_failed` / `_mark_as_unfailed`: primary key
and mode survive, the state is the old one unless the row is one of the
targeted ids, and `waiting_for_count` never increases. -/
def mf_rel (ids : List Nat) (target : GoalState) (a b : Goal) : Prop :=
  b.gid = a.gid ∧ b.preconditions_mode = a.preconditions_mode ∧
  (b.state = a.state ∨ (b.state = target ∧ ids.contains a.gid = true)) ∧
  b.waiting_for_count ≤ a.waiting_for_count

theorem mf_rel_refl (ids : List Nat) (target : GoalState) (a : Goal) :
    mf_rel ids target a a := ⟨rfl, rfl, Or.inl rfl, le_refl _⟩

theorem mf_rel_trans {ids : List Nat} {target : GoalState} {a b c : Goal}
    (h1 : mf_rel ids target a b) (h2 : mf_rel ids target b c) :
    mf_rel ids target a c := by
  obtain ⟨hg1, hm1, hs1, hw1⟩ := h1
  obtain ⟨hg2, hm2, hs2, hw2⟩ := h2
  refine ⟨hg2.trans hg1, hm2.trans hm1, ?_, le_trans hw2 hw1⟩
  rcases hs2 with hs2 | ⟨hs2, hc2⟩
  · rcases hs1 with hs1 | ⟨hs1, hc1⟩
    · exact Or.inl (hs2.trans hs1)
    · exact Or.inr ⟨hs2.trans hs1, hc1⟩
  · exact Or.inr ⟨hs2, hg1 ▸ hc2⟩

theorem forall2_mf_trans {ids : List Nat} {target : GoalState}
    {l1 l2 l3 : List Goal} (h12 : List.Forall₂ (mf_rel ids target) l1 l2)
    (h23 : List.Forall₂ (mf_rel ids target) l2 l3) :
    List.Forall₂ (mf_rel ids target) l1 l3 :=
  forall2_comp (fun (a b c : Goal) (h1 : mf_rel ids target a b)
    (h2 : mf_rel ids target b c) => mf_rel_trans h1 h2) h12 h23

theorem mark_as_failed_rows (ids : List Nat) (target : GoalState) (db : Db) :
    List.Forall₂ (mf_rel ids target) db.goals (mark_as_failed ids target db).goals := by
  unfold mark_as_failed
  split_ifs with hemp
  · exact forall2_refl (mf_rel_refl ids target) _
  · simp only [update_where]
    refine forall2_mf_trans (forall2_mf_trans
        (forall2_map_self (fun a _ => ?_)) (forall2_map_self (fun a _ => ?_)))
      (forall2_map_self (fun a _ => ?_))
    · split_ifs with h
      · exact ⟨rfl, rfl, Or.inr ⟨rfl, h⟩, le_refl _⟩
      · exact mf_rel_refl ids target a
    · split_ifs with h
      · exact ⟨rfl, rfl, Or.inl rfl, le_refl _⟩
      · exact mf_rel_refl ids target a
    · split_ifs with h
      · refine ⟨rfl, rfl, Or.inl rfl, ?_⟩
        show a.waiting_for_count - 1 ≤ a.waiting_for_count
        omega
      · exact mf_rel_refl ids target a

theorem mark_as_unfailed_rows (ids : List Nat) (db : Db) :
    List.Forall₂ (mf_rel ids .waiting_for_date) db.goals
      (mark_as_unfailed ids db).goals := by
  unfold mark_as_unfailed
  split_ifs with hemp
  · exact forall2_refl (mf_rel_refl ids _) _
  · simp only [update_where]
    refine forall2_mf_trans
      (forall2_map_self (fun a _ => ?_)) (forall2_map_self (fun a _ => ?_))
    · split_ifs with h
      · exact ⟨rfl, rfl, Or.inr ⟨rfl, h⟩, le_refl _⟩
      · exact mf_rel_refl ids _ a
    · split_ifs with h
      · exact ⟨rfl, rfl, Or.inl rfl, le_refl _⟩
      · exact mf_rel_refl ids _ a

/-- The flawed invariant of the spec, weakened to the provable bound: a
WAITING_FOR_WORKER goal in ALL mode has `waiting_for_count ≤ 0`. -/
def WfwAllInv (db : Db) : Prop :=
  ∀ g ∈ db.goals, g.state = .waiting_for_worker → g.preconditions_mode = .all →
    g.waiting_for_count ≤ 0

/-- Transport of the invariant (and of primary-key uniqueness) along a row
relation that keeps gid and mode and cannot move a goal into
WAITING_FOR_WORKER while raising its counter. -/
theorem inv_transport {db db' : Db} {R : Goal → Goal → Prop}
    (h : List.Forall₂ R db.goals db'.goals)
    (hprop : ∀ a b, R a b → b.gid = a.gid ∧
      b.preconditions_mode = a.preconditions_mode ∧
      (b.state = .waiting_for_worker → a.state = .waiting_for_worker ∧
        b.waiting_for_count ≤ a.waiting_for_count))
    (hinv : WfwAllInv db) :
    WfwAllInv db' ∧
    ((db.goals.map (·.gid)).Nodup → (db'.goals.map (·.gid)).Nodup) := by
  constructor
  · intro g' hg' hst hmode
    obtain ⟨a, ha, hab⟩ := forall2_mem_right h g' hg'
    obtain ⟨hgid, hm, hw⟩ := hprop a g' hab
    obtain ⟨hast, hwle⟩ := hw hst
    exact le_trans hwle (hinv a ha hast (hm ▸ hmode))
  · intro hnd
    rw [forall2_gid_map (fun a b hab => (hprop a b hab).1) h]
    exact hnd

theorem mf_rel_prop {ids : List Nat} {target : GoalState}
    (htarget : target ≠ .waiting_for_worker) :
    ∀ a b, mf_rel ids target a b → b.gid = a.gid ∧
      b.preconditions_mode = a.preconditions_mode ∧
      (b.state = .waiting_for_worker → a.state = .waiting_for_worker ∧
        b.waiting_for_count ≤ a.waiting_for_count) := by
  intro a b ⟨hg, hm, hs, hw⟩
  refine ⟨hg, hm, fun hwfw => ?_⟩
  rcases hs with hs | ⟨hs, _⟩
  · exact ⟨hs ▸ hwfw, hw⟩
  · exact absurd (hs ▸ hwfw) htarget

theorem t_date_inv (now : Int) (db : Db) (hinv : WfwAllInv db) :
    WfwAllInv (handle_waiting_for_date now db).1 ∧
    ((db.goals.map (·.gid)).Nodup →
      ((handle_waiting_for_date now db).1.goals.map (·.gid)).Nodup) := by
  have hrows : List.Forall₂ (mf_rel ((db.goals.filter (fun g =>
      g.state == .waiting_for_date && decide (g.precondition_date ≤ now))).map (·.gid))
      .waiting_for_preconditions) db.goals (handle_waiting_for_date now db).1.goals := by
    simp only [handle_waiting_for_date, update_where]
    exact forall2_map_self (fun a _ => by
      split_ifs with h
      · exact ⟨rfl, rfl, Or.inr ⟨rfl, h⟩, le_refl _⟩
      · exact mf_rel_refl _ _ a)
  exact inv_transport hrows (mf_rel_prop (by decide)) hinv

theorem t_precond_inv (db : Db) (hnd : (db.goals.map (·.gid)).Nodup)
    (hinv : WfwAllInv db) :
    WfwAllInv (handle_waiting_for_preconditions db).1 ∧
    ((handle_waiting_for_preconditions db).1.goals.map (·.gid)).Nodup := by
  have hrows : List.Forall₂ (mf_rel ((db.goals.filter (fun g =>
      g.state == .waiting_for_preconditions && decide (g.waiting_for_count ≤ 0))).map (·.gid))
      .waiting_for_worker) db.goals (handle_waiting_for_preconditions db).1.goals := by
    simp only [handle_waiting_for_preconditions, update_where]
    exact forall2_map_self (fun a _ => by
      split_ifs with h
      · exact ⟨rfl, rfl, Or.inr ⟨rfl, h⟩, le_refl _⟩
      · exact mf_rel_refl _ _ a)
  constructor
  · intro g' hg' hst hmode
    simp only [handle_waiting_for_preconditions, update_where] at hg'
    obtain ⟨a, ha, haeq⟩ := List.mem_map.mp hg'
    by_cases hc : (((db.goals.filter (fun g => g.state == .waiting_for_preconditions &&
        decide (g.waiting_for_count ≤ 0))).map (·.gid)).contains a.gid) = true
    · have hmem : a.gid ∈ (db.goals.filter (fun g =>
          g.state == .waiting_for_preconditions &&
          decide (g.waiting_for_count ≤ 0))).map (·.gid) := by simpa using hc
      obtain ⟨a1, ha1, ha1gid⟩ := List.mem_map.mp hmem
      have ha1db := List.mem_of_mem_filter ha1
      have heq : a1 = a := List.inj_on_of_nodup_map hnd ha1db ha ha1gid
      have hcond := (List.mem_filter.mp ha1).2
      simp only [Bool.and_eq_true, beq_iff_eq, decide_eq_true_eq] at hcond
      rw [← haeq, if_pos hc]
      show a.waiting_for_count ≤ 0
      rw [← heq]
      exact hcond.2
    · rw [← haeq, if_neg hc] at hst hmode ⊢
      exact hinv a ha hst hmode
  · rw [forall2_gid_map (fun a b hab => hab.1) hrows]
    exact hnd

theorem t_pfailed_inv (db : Db) (hinv : WfwAllInv db) :
    WfwAllInv (handle_waiting_for_failed_preconditions db).1 ∧
    ((db.goals.map (·.gid)).Nodup →
      ((handle_waiting_for_failed_preconditions db).1.goals.map (·.gid)).Nodup) := by
  have hrows := mark_as_failed_rows ((db.goals.filter (fun g =>
    g.state == .waiting_for_preconditions &&
    g.precondition_failure_behavior == .block &&
    decide (0 < g.waiting_for_failed_count))).map (·.gid))
    .not_going_to_happen_soon db
  exact inv_transport hrows (mf_rel_prop (by decide)) hinv

theorem t_unblock_inv (db : Db) (hinv : WfwAllInv db) :
    WfwAllInv (handle_unblocked_goals db).1 ∧
    ((db.goals.map (·.gid)).Nodup →
      ((handle_unblocked_goals db).1.goals.map (·.gid)).Nodup) := by
  have hrows := mark_as_unfailed_rows ((db.goals.filter (fun g =>
    g.state == .not_going_to_happen_soon &&
    decide (g.waiting_for_failed_count ≤ 0))).map (·.gid)) db
  exact inv_transport hrows (mf_rel_prop (by decide)) hinv

theorem block_goal_inv (gid : Nat) (db db' : Db)
    (h : block_goal gid db = .ok db') (hinv : WfwAllInv db) :
    WfwAllInv db' ∧
    ((db.goals.map (·.gid)).Nodup → (db'.goals.map (·.gid)).Nodup) := by
  unfold block_goal at h
  split at h
  · cases h
  · split at h
    · cases h
      exact inv_transport (mark_as_failed_rows [gid] .blocked db)
        (mf_rel_prop (by decide)) hinv
    · cases h

theorem unblock_goal_inv (gid : Nat) (db db' : Db)
    (h : unblock_retry_goal gid db = .ok db') (hinv : WfwAllInv db) :
    WfwAllInv db' ∧
    ((db.goals.map (·.gid)).Nodup → (db'.goals.map (·.gid)).Nodup) := by
  unfold unblock_retry_goal at h
  split at h
  · cases h
  · split at h
    · cases h
      exact inv_transport (mark_as_unfailed_rows [gid] db)
        (mf_rel_prop (by decide)) hinv
    · cases h

theorem remove_old_goals_inv (s : Settings) (now : Int) (db : Db)
    (hinv : WfwAllInv db) :
    WfwAllInv (remove_old_goals s now db).1 ∧
    ((db.goals.map (·.gid)).Nodup →
      ((remove_old_goals s now db).1.goals.map (·.gid)).Nodup) := by
  have hsub : (remove_old_goals s now db).1.goals.Sublist db.goals := by
    unfold remove_old_goals
    split
    · exact List.Sublist.refl _
    · dsimp only
      split_ifs
      · exact List.Sublist.refl _
      · exact List.Sublist.refl _
      · exact List.filter_sublist _
  constructor
  · intro g' hg' hst hm
    exact hinv g' (hsub.subset hg') hst hm
  · intro hnd
    exact List.Nodup.sublist (hsub.map (·.gid)) hnd

/-- Row relation through the middle of a dispatch step: gid and mode
survive; a row either keeps its state with a non-increasing counter, or is
the dispatched goal's row (whose state the final write settles). -/
def relMid (gid0 : Nat) (a b : Goal) : Prop :=
  b.gid = a.gid ∧ b.preconditions_mode = a.preconditions_mode ∧
  ((b.state = a.state ∧ b.waiting_for_count ≤ a.waiting_for_count) ∨ a.gid = gid0)

theorem relMid_refl (gid0 : Nat) (a : Goal) : relMid gid0 a a :=
  ⟨rfl, rfl, Or.inl ⟨rfl, le_refl _⟩⟩

theorem relMid_trans {gid0 : Nat} {a b c : Goal}
    (h1 : relMid gid0 a b) (h2 : relMid gid0 b c) : relMid gid0 a c := by
  obtain ⟨hg1, hm1, h1⟩ := h1
  obtain ⟨hg2, hm2, h2⟩ := h2
  refine ⟨hg2.trans hg1, hm2.trans hm1, ?_⟩
  rcases h1 with ⟨hs1, hw1⟩ | h1
  · rcases h2 with ⟨hs2, hw2⟩ | h2
    · exact Or.inl ⟨hs2.trans hs1, le_trans hw2 hw1⟩
    · exact Or.inr (hg1 ▸ h2)
  · exact Or.inr h1

theorem forall2_relMid_trans {gid0 : Nat} {l1 l2 l3 : List Goal}
    (h12 : List.Forall₂ (relMid gid0) l1 l2)
    (h23 : List.Forall₂ (relMid gid0) l2 l3) :
    List.Forall₂ (relMid gid0) l1 l3 :=
  forall2_comp (fun (a b c : Goal) (h1 : relMid gid0 a b)
    (h2 : relMid gid0 b c) => relMid_trans h1 h2) h12 h23

theorem mf_to_relMid (gid0 : Nat) (target : GoalState) :
    ∀ a b, mf_rel [gid0] target a b → relMid gid0 a b := by
  intro a b ⟨hg, hm, hs, hw⟩
  refine ⟨hg, hm, ?_⟩
  rcases hs with hs | ⟨hs, hc⟩
  · exact Or.inl ⟨hs, hw⟩
  · have : a.gid = gid0 := by simpa using hc
    exact Or.inr this

theorem add_row_rel_to_relMid (gid0 : Nat) :
    ∀ a b, add_row_rel gid0 a b → relMid gid0 a b := by
  intro a b h
  unfold add_row_rel at h
  split_ifs at h with hgid
  · rw [h]
    exact ⟨rfl, rfl, Or.inr hgid⟩
  · rw [h]
    exact ⟨rfl, rfl, Or.inl ⟨rfl, le_refl _⟩⟩

/-- Row relation across a whole dispatch step: the dispatched goal's row
ends in the state the final write installs; every other row keeps its state
and a non-increasing counter. -/
def fin_rel (gid0 : Nat) (st2 : GoalState) (a b : Goal) : Prop :=
  b.gid = a.gid ∧ b.preconditions_mode = a.preconditions_mode ∧
  ((a.gid ≠ gid0 ∧ b.state = a.state ∧ b.waiting_for_count ≤ a.waiting_for_count) ∨
   (a.gid = gid0 ∧ b.state = st2))

/-- Proof scaffolding: the shared tail of `handle_waiting_for_worker`, once
the outcome has been resolved into success flag, message, normalised goal
and intermediate database.  Mirrors the dispatch definition statement for
statement. -/
def dispatch_tail (s : Settings) (now : Int) (goal goal1 : Goal) (db1 : Db)
    (success : Bool) (message : String) : Db × Option ProgressRec :=
  let db2 := if goal1.state == GoalState.achieved then
      let gsd := update_where
        (fun g => db1.deps.any (fun e => e.1 = g.gid && e.2 = goal.gid))
        (fun g => { g with
            waiting_for_count := g.waiting_for_count - 1,
            waiting_for_not_achieved_count := g.waiting_for_not_achieved_count - 1 })
        db1.goals
      { db1 with goals := gsd }
    else db1
  let progressRow : ProgressRec :=
    { goal_id := goal.gid, success := success, created_at := now, message := message }
  let db3 := { db2 with progress := db2.progress ++ [progressRow] }
  let goal2 :=
    match s.GOALS_MAX_PROGRESS_COUNT with
    | some max_progress_count =>
      if goal1.state ≠ GoalState.achieved ∧
         max_progress_count ≤ progress_count db3 goal.gid then
        { goal1 with state := GoalState.given_up }
      else goal1
    | none => goal1
  let db4 := if goal2.state == GoalState.given_up then
      mark_as_failed [goal.gid] .given_up db3
    else db3
  let gs5 := update_where (fun g => g.gid = goal.gid)
    (fun g => { g with state := goal2.state,
                       precondition_date := goal2.precondition_date }) db4.goals
  ({ db4 with goals := gs5 }, some progressRow)

theorem dispatch_cases (s : Settings) (dh : Option Int) (now : Int)
    (outcome : HandlerOutcome) (db : Db) (goal : Goal)
    (hpick : pick_goal dh now db = some goal) :
    ∃ (success : Bool) (msg : String) (goal1 : Goal) (db1 : Db),
      handle_waiting_for_worker s dh now outcome db =
        dispatch_tail s now goal goal1 db1 success msg ∧
      goal1.state ≠ GoalState.waiting_for_worker ∧
      List.Forall₂ (relMid goal.gid) db.goals db1.goals := by
  cases outcome with
  | raised =>
    cases hrd : get_retry_delay s.GOALS_GIVE_UP_AT (failed_progress_count db goal.gid) with
    | none =>
      refine ⟨false, "", { goal with state := .given_up }, db, ?_, ?_,
        forall2_refl (relMid_refl _) _⟩
      · simp only [handle_waiting_for_worker, hpick, hrd, dispatch_tail]
      · simp
    | some rd =>
      refine ⟨false, "",
        { goal with state := .waiting_for_date, precondition_date := now + rd },
        db, ?_, ?_, forall2_refl (relMid_refl _) _⟩
      · simp only [handle_waiting_for_worker, hpick, hrd, dispatch_tail]
      · simp
  | retry_me_later pd pgs msg =>
    cases pd with
    | none =>
      refine ⟨true, msg, { goal with state := .waiting_for_date },
        add_precondition_goals { goal with state := .waiting_for_date } pgs db,
        ?_, ?_, ?_⟩
      · simp only [handle_waiting_for_worker, hpick, dispatch_tail]
      · simp
      · exact List.Forall₂.imp
          (fun a b hab => add_row_rel_to_relMid _ a b hab)
          (add_precondition_goals_rows { goal with state := GoalState.waiting_for_date } pgs db)
    | some p =>
      refine ⟨true, msg,
        { goal with state := .waiting_for_date, precondition_date := max goal.precondition_date p },
        add_precondition_goals
          { goal with state := .waiting_for_date, precondition_date := max goal.precondition_date p }
          pgs db,
        ?_, ?_, ?_⟩
      · simp only [handle_waiting_for_worker, hpick, dispatch_tail]
      · simp
      · exact List.Forall₂.imp
          (fun a b hab => add_row_rel_to_relMid _ a b hab)
          (add_precondition_goals_rows
            { goal with state := GoalState.waiting_for_date, precondition_date := max goal.precondition_date p }
            pgs db)
  | all_done =>
    refine ⟨true, "", { goal with state := .achieved }, db, ?_, ?_,
      forall2_refl (relMid_refl _) _⟩
    · simp only [handle_waiting_for_worker, hpick, dispatch_tail]
    · simp
  | unknown_value =>
    refine ⟨true, "", { goal with state := .achieved }, db, ?_, ?_,
      forall2_refl (relMid_refl _) _⟩
    · simp only [handle_waiting_for_worker, hpick, dispatch_tail]
    · simp

theorem tail_core (gid0 : Nat) (st2 : GoalState) (pd2 : Int) :
    ∀ {gsrc mid : List Goal}, List.Forall₂ (relMid gid0) gsrc mid →
    List.Forall₂ (fin_rel gid0 st2) gsrc
      (update_where (fun g => g.gid = gid0)
        (fun g => { g with state := st2, precondition_date := pd2 }) mid) := by
  intro gsrc mid hmid
  induction hmid with
  | nil => exact List.Forall₂.nil
  | cons hab hrest ih =>
    rename_i a b l1 l2
    simp only [update_where, List.map_cons] at ih ⊢
    refine List.Forall₂.cons ?_ ih
    obtain ⟨hg1, hm1, h1⟩ := hab
    by_cases hc : b.gid = gid0
    · rw [if_pos (decide_eq_true hc)]
      exact ⟨hg1, hm1, Or.inr ⟨hg1 ▸ hc, rfl⟩⟩
    · rw [if_neg (by simpa using hc)]
      refine ⟨hg1, hm1, ?_⟩
      rcases h1 with ⟨hs1, hw1⟩ | h1
      · exact Or.inl ⟨fun hc2 => hc (hg1.trans hc2), hs1, hw1⟩
      · exact absurd (hg1.trans h1) hc

theorem dispatch_tail_rows (s : Settings) (now : Int) (goal goal1 : Goal)
    (db1 : Db) (success : Bool) (msg : String)
    (hst1 : goal1.state ≠ GoalState.waiting_for_worker) :
    ∃ st2, st2 ≠ GoalState.waiting_for_worker ∧
      List.Forall₂ (fin_rel goal.gid st2) db1.goals
        (dispatch_tail s now goal goal1 db1 success msg).1.goals := by
  simp only [dispatch_tail]
  set db2 : Db := (if goal1.state == GoalState.achieved then
      { db1 with goals := update_where (fun g => db1.deps.any (fun e => e.1 = g.gid && e.2 = goal.gid))
                   (fun g => { g with waiting_for_count := g.waiting_for_count - 1,
                                      waiting_for_not_achieved_count := g.waiting_for_not_achieved_count - 1 })
                   db1.goals }
    else db1) with hdb2
  set row : ProgressRec :=
    { goal_id := goal.gid, success := success, created_at := now, message := msg } with hrow
  set db3 : Db := { db2 with progress := db2.progress ++ [row] } with hdb3
  set goal2 : Goal := (match s.GOALS_MAX_PROGRESS_COUNT with
    | some max_progress_count =>
      if goal1.state ≠ GoalState.achieved ∧
         max_progress_count ≤ progress_count db3 goal.gid then
        { goal1 with state := GoalState.given_up }
      else goal1
    | none => goal1) with hgoal2
  set db4 : Db := (if goal2.state == GoalState.given_up then
      mark_as_failed [goal.gid] .given_up db3
    else db3) with hdb4
  refine ⟨goal2.state, ?_, ?_⟩
  · rw [hgoal2]
    cases s.GOALS_MAX_PROGRESS_COUNT with
    | none => exact hst1
    | some m =>
      simp only
      split_ifs with h
      · intro hcon
        exact (by decide : ¬ (GoalState.given_up = GoalState.waiting_for_worker)) hcon
      · exact hst1
  · have hm2 : List.Forall₂ (relMid goal.gid) db1.goals db2.goals := by
      rw [hdb2]
      split_ifs with h
      · simp only [update_where]
        refine forall2_map_self (fun a _ => ?_)
        split_ifs with hdep
        · refine ⟨rfl, rfl, Or.inl ⟨rfl, ?_⟩⟩
          show a.waiting_for_count - 1 ≤ a.waiting_for_count
          omega
        · exact relMid_refl _ a
      · exact forall2_refl (relMid_refl _) _
    have hm3 : db3.goals = db2.goals := by rw [hdb3]
    have hm4 : List.Forall₂ (relMid goal.gid) db2.goals db4.goals := by
      rw [hdb4]
      split_ifs with h
      · have hmf := mark_as_failed_rows [goal.gid] .given_up db3
        rw [hm3] at hmf
        exact List.Forall₂.imp (mf_to_relMid goal.gid .given_up) hmf
      · rw [← hm3]
        exact forall2_refl (relMid_refl _) _
    exact tail_core goal.gid goal2.state goal2.precondition_date
      (forall2_relMid_trans hm2 hm4)

theorem dispatch_inv (s : Settings) (dh : Option Int) (now : Int)
    (outcome : HandlerOutcome) (db : Db) (hinv : WfwAllInv db) :
    WfwAllInv (handle_waiting_for_worker s dh now outcome db).1 ∧
    ((db.goals.map (·.gid)).Nodup →
      ((handle_waiting_for_worker s dh now outcome db).1.goals.map (·.gid)).Nodup) := by
  cases hpick : pick_goal dh now db with
  | none =>
    have hid : (handle_waiting_for_worker s dh now outcome db).1 = db := by
      unfold handle_waiting_for_worker
      rw [hpick]
    rw [hid]
    exact ⟨hinv, id⟩
  | some goal =>
    obtain ⟨succ, msg, goal1, db1, heq, hst1, hmid⟩ :=
      dispatch_cases s dh now outcome db goal hpick
    obtain ⟨st2, hst2, hfin⟩ := dispatch_tail_rows s now goal goal1 db1 succ msg hst1
    rw [heq]
    have hcomp : List.Forall₂ (fin_rel goal.gid st2) db.goals
        (dispatch_tail s now goal goal1 db1 succ msg).1.goals := by
      refine forall2_comp (fun a b c hab hbc => ?_) hmid hfin
      obtain ⟨hg1, hm1, h1⟩ := hab
      obtain ⟨hg2, hm2, h2⟩ := hbc
      refine ⟨hg2.trans hg1, hm2.trans hm1, ?_⟩
      rcases h2 with ⟨hne2, hs2, hw2⟩ | ⟨heq2, hs2⟩
      · rcases h1 with ⟨hs1, hw1⟩ | h1
        · exact Or.inl ⟨fun hc => hne2 (hg1.trans hc), hs2.trans hs1, le_trans hw2 hw1⟩
        · exact absurd (hg1.trans h1) hne2
      · exact Or.inr ⟨hg1.symm.trans heq2, hs2⟩
    refine inv_transport hcomp (fun a b hab => ?_) hinv
    obtain ⟨hg, hm, h⟩ := hab
    refine ⟨hg, hm, fun hwfw => ?_⟩
    rcases h with ⟨_, hs, hw⟩ | ⟨_, hs⟩
    · exact ⟨hs ▸ hwfw, hw⟩
    · exact absurd (hs ▸ hwfw) hst2

/-- Strengthening of `add_row_rel`: the row of the goal itself receives the
three concrete counter values the call computed; other rows change at most
their deadline. -/
def add_row_rel_strong (gid0 : Nat) (w1 w2 w3 : Int) (a b : Goal) : Prop :=
  if a.gid = gid0 then
    b = { a with waiting_for_count := w1, waiting_for_not_achieved_count := w2,
                 waiting_for_failed_count := w3, deadline := b.deadline }
  else dl_only a b

theorem add_row_rel_strong_gid {gid0 : Nat} {w1 w2 w3 : Int} {a b : Goal}
    (h : add_row_rel_strong gid0 w1 w2 w3 a b) : b.gid = a.gid := by
  unfold add_row_rel_strong at h
  split_ifs at h <;> rw [h]

theorem add_row_rel_strong_dl {gid0 : Nat} {w1 w2 w3 : Int} {a b c : Goal}
    (h1 : add_row_rel_strong gid0 w1 w2 w3 a b) (h2 : dl_only b c) :
    add_row_rel_strong gid0 w1 w2 w3 a c := by
  unfold add_row_rel_strong at h1 ⊢
  split_ifs at h1 ⊢ with hg
  · rw [h2, h1]
  · exact dl_only_trans h1 h2

/-- The in-memory goal at the end of the counter phase of
`_add_precondition_goals` (the value whose three counters the UPDATE
writes). -/
def add_computed (goal : Goal) (pgoals : List Goal) (db : Db) : Goal :=
  apply_any_mode (apply_proceed_adjustment (count_new_preconditions
    { goal with waiting_for_count := 0 }
    (db.goals.filter (fun p => ((pgoals.map (·.gid)).contains p.gid &&
      !(db.deps.contains (({ goal with waiting_for_count := 0 } : Goal).gid, p.gid))))))) pgoals
    (db.goals.filter (fun p => ((pgoals.map (·.gid)).contains p.gid &&
      !(db.deps.contains (({ goal with waiting_for_count := 0 } : Goal).gid, p.gid)))))

theorem add_precondition_goals_rows2 (goal : Goal) (pgoals : List Goal) (db : Db) :
    List.Forall₂ (add_row_rel_strong goal.gid
      (add_computed goal pgoals db).waiting_for_count
      (add_computed goal pgoals db).waiting_for_not_achieved_count
      (add_computed goal pgoals db).waiting_for_failed_count)
      db.goals (add_precondition_goals goal (some pgoals) db).goals := by
  have elem : ∀ (cgid : Nat), cgid = goal.gid → ∀ (w1 w2 w3 : Int), ∀ a,
      add_row_rel_strong goal.gid w1 w2 w3 a (if (a.gid = cgid : Bool) then
        { a with waiting_for_count := w1, waiting_for_not_achieved_count := w2,
                 waiting_for_failed_count := w3 } else a) := by
    intro cgid hg w1 w2 w3 a
    by_cases ha : a.gid = goal.gid
    · rw [if_pos (by simp [hg, ha])]
      unfold add_row_rel_strong
      rw [if_pos ha]
    · rw [if_neg (by simp [hg, ha])]
      unfold add_row_rel_strong
      rw [if_neg ha]
      exact dl_only_refl a
  refine forall2_comp (fun (a b c : Goal)
      (h1 : add_row_rel_strong goal.gid
        (add_computed goal pgoals db).waiting_for_count
        (add_computed goal pgoals db).waiting_for_not_achieved_count
        (add_computed goal pgoals db).waiting_for_failed_count a b)
      (h2 : dl_only b c) => add_row_rel_strong_dl h1 h2) ?_
    (update_goals_deadline_dl_only _ _ _ _ _)
  refine forall2_map_self (fun a _ => ?_)
  beta_reduce
  refine elem _ ?hgs2 _ _ _ a
  case hgs2 =>
    have h := add_computed_counters goal pgoals
      (db.goals.filter (fun p => ((pgoals.map (fun x => x.gid)).contains p.gid &&
        !(db.deps.contains (({ goal with waiting_for_count := 0 } : Goal).gid, p.gid)))))
    unfold counters_only at h
    rw [h]

/-- With no precondition goals supplied and both failure counters at zero
(a freshly built goal), the computed `waiting_for_count` is zero. -/
theorem add_computed_nil (goal : Goal) (db : Db)
    (hwffc : goal.waiting_for_failed_count = 0)
    (hwnac : goal.waiting_for_not_achieved_count = 0) :
    (add_computed goal [] db).waiting_for_count = 0 := by
  unfold add_computed
  have hnil : db.goals.filter (fun p => ((([] : List Goal).map (·.gid)).contains p.gid &&
      !(db.deps.contains (({ goal with waiting_for_count := 0 } : Goal).gid, p.gid)))) = [] := by
    simp
  rw [hnil]
  show (apply_any_mode (apply_proceed_adjustment
    { goal with waiting_for_count := 0 }) [] []).waiting_for_count = 0
  unfold apply_any_mode
  split_ifs with hany
  · show (apply_any_cap (apply_proceed_adjustment
      { goal with waiting_for_count := 0 })).waiting_for_count = 0
    unfold apply_proceed_adjustment
    split_ifs with hproc
    · simp only [apply_any_cap]
      split_ifs with hcap
      · exfalso
        have h0 : (0 : Int) < goal.waiting_for_not_achieved_count := hcap
        omega
      · show min ((0 : Int) - goal.waiting_for_failed_count) 1 = 0
        rw [hwffc]
        decide
    · simp only [apply_any_cap]
      split_ifs with hcap
      · exfalso
        have h0 : (0 : Int) < goal.waiting_for_not_achieved_count := hcap
        omega
      · show min (0 : Int) 1 = 0
        decide
  · unfold apply_proceed_adjustment
    split_ifs with hproc
    · show (0 : Int) - goal.waiting_for_failed_count = 0
      rw [hwffc]
      decide
    · rfl

theorem add_after_append_inv (g0 : Goal) (pgoals : List Goal) (db : Db)
    (hfresh : ∀ g ∈ db.goals, ¬ g.gid = g0.gid) (hinv : WfwAllInv db)
    (hnd : (db.goals.map (·.gid)).Nodup)
    (hwfw : g0.state = .waiting_for_worker → g0.preconditions_mode = .all →
      (add_computed g0 pgoals { db with goals := db.goals ++ [g0] }).waiting_for_count ≤ 0) :
    WfwAllInv (add_precondition_goals g0 (some pgoals) { db with goals := db.goals ++ [g0] }) ∧
    ((add_precondition_goals g0 (some pgoals)
        { db with goals := db.goals ++ [g0] }).goals.map (·.gid)).Nodup := by
  have hrows := add_precondition_goals_rows2 g0 pgoals { db with goals := db.goals ++ [g0] }
  constructor
  · intro g' hg' hst hmode
    obtain ⟨a, ha, hrel⟩ := forall2_mem_right hrows g' hg'
    have ha' : a ∈ db.goals ++ [g0] := ha
    rcases List.mem_append.mp ha' with hdb | hg0
    · have hne : ¬ a.gid = g0.gid := hfresh a hdb
      unfold add_row_rel_strong at hrel
      rw [if_neg hne] at hrel
      rw [hrel] at hst hmode ⊢
      exact hinv a hdb hst hmode
    · have ha0 : a = g0 := by simpa using hg0
      subst ha0
      unfold add_row_rel_strong at hrel
      rw [if_pos rfl] at hrel
      rw [hrel] at hst hmode ⊢
      exact hwfw hst hmode
  · rw [forall2_gid_map (fun a b hab => add_row_rel_strong_gid hab) hrows]
    show ((db.goals ++ [g0]).map (·.gid)).Nodup
    rw [List.map_append]
    refine List.Nodup.append hnd (List.nodup_singleton _) ?_
    intro x hx hx2
    simp only [List.map_cons, List.map_nil, List.mem_singleton] at hx2
    obtain ⟨g, hg, hggid⟩ := List.mem_map.mp hx
    exact hfresh g hg (by rw [hggid, hx2])

theorem schedule_inv (db : Db) (new_gid : Nat) (now : Int) (handler : String)
    (pdate : Option Int) (pgoals? : Option (List Goal)) (blocked : Bool)
    (deadline cgd : Option Int) (mode : PreconditionsMode)
    (behavior : PreconditionFailureBehavior) (s : Settings)
    (hfresh : ∀ g ∈ db.goals, ¬ g.gid = new_gid) (hinv : WfwAllInv db)
    (hnd : (db.goals.map (·.gid)).Nodup) :
    WfwAllInv (schedule db new_gid now handler pdate pgoals? blocked
      deadline cgd mode behavior s) ∧
    ((schedule db new_gid now handler pdate pgoals? blocked
        deadline cgd mode behavior s).goals.map (·.gid)).Nodup := by
  simp only [schedule]
  refine add_after_append_inv _ _ db (fun g hg => hfresh g hg) hinv hnd ?_
  intro hst hmode
  cases blocked with
  | true => simp at hst
  | false =>
    by_cases hcnd : (pgoals?.getD []).isEmpty = true
    · have hpg : pgoals?.getD [] = [] := by
        rw [← List.isEmpty_iff]
        exact hcnd
      rw [hpg]
      rw [add_computed_nil _ _ rfl rfl]
    · exfalso
      rcases pdate with _ | p
      · simp [hcnd] at hst
      · simp [hcnd] at hst

/-- One committed engine operation: scheduling a goal under a fresh primary
key, blocking, unblocking, the four transition handlers, a dispatch step,
or a retention pass. -/
inductive Step : Db → Db → Prop where
  | schedule_op (db : Db) (new_gid : Nat) (now : Int) (handler : String)
      (pdate : Option Int) (pgoals : Option (List Goal)) (blocked : Bool)
      (deadline cgd : Option Int) (mode : PreconditionsMode)
      (behavior : PreconditionFailureBehavior) (s : Settings)
      (hfresh : ∀ g ∈ db.goals, ¬ g.gid = new_gid) :
      Step db (schedule db new_gid now handler pdate pgoals blocked
        deadline cgd mode behavior s)
  | block_op (db db' : Db) (gid : Nat) (h : block_goal gid db = .ok db') :
      Step db db'
  | unblock_op (db db' : Db) (gid : Nat) (h : unblock_retry_goal gid db = .ok db') :
      Step db db'
  | t_date_op (db : Db) (now : Int) : Step db (handle_waiting_for_date now db).1
  | t_precond_op (db : Db) : Step db (handle_waiting_for_preconditions db).1
  | t_pfailed_op (db : Db) : Step db (handle_waiting_for_failed_preconditions db).1
  | t_unblock_op (db : Db) : Step db (handle_unblocked_goals db).1
  | dispatch_op (db : Db) (s : Settings) (dh : Option Int) (now : Int)
      (outcome : HandlerOutcome) :
      Step db (handle_waiting_for_worker s dh now outcome db).1
  | cleanup_op (db : Db) (s : Settings) (now : Int) :
      Step db (remove_old_goals s now db).1

/-- Database states reachable from the empty database by engine
operations. -/
inductive Reachable : Db → Prop where
  | empty : Reachable {}
  | step {db db' : Db} : Reachable db → Step db db' → Reachable db'

theorem reach_inv (db : Db) (h : Reachable db) :
    WfwAllInv db ∧ (db.goals.map (·.gid)).Nodup := by
  induction h with
  | empty =>
    exact ⟨fun g hg hst hmode => absurd hg (List.not_mem_nil g), by simp⟩
  | step hr hs ih =>
    rename_i dbA dbB
    obtain ⟨hinv, hnd⟩ := ih
    cases hs with
    | schedule_op new_gid now handler pdate pgoals blocked deadline cgd mode behavior s hfresh =>
      exact schedule_inv dbA new_gid now handler pdate pgoals blocked
        deadline cgd mode behavior s hfresh hinv hnd
    | block_op _ gid hok =>
      obtain ⟨h1, h2⟩ := block_goal_inv gid dbA dbB hok hinv
      exact ⟨h1, h2 hnd⟩
    | unblock_op _ gid hok =>
      obtain ⟨h1, h2⟩ := unblock_goal_inv gid dbA dbB hok hinv
      exact ⟨h1, h2 hnd⟩
    | t_date_op now =>
      obtain ⟨h1, h2⟩ := t_date_inv now dbA hinv
      exact ⟨h1, h2 hnd⟩
    | t_precond_op =>
      exact t_precond_inv dbA hnd hinv
    | t_pfailed_op =>
      obtain ⟨h1, h2⟩ := t_pfailed_inv dbA hinv
      exact ⟨h1, h2 hnd⟩
    | t_unblock_op =>
      obtain ⟨h1, h2⟩ := t_unblock_inv dbA hinv
      exact ⟨h1, h2 hnd⟩
    | dispatch_op s dh now outcome =>
      obtain ⟨h1, h2⟩ := dispatch_inv s dh now outcome dbA hinv
      exact ⟨h1, h2 hnd⟩
    | cleanup_op s now =>
      obtain ⟨h1, h2⟩ := remove_old_goals_inv s now dbA hinv
      exact ⟨h1, h2 hnd⟩

/-- C1 (amended): in every reachable committed database state, a goal with
state = WAITING_FOR_WORKER and preconditions_mode = ALL has
waiting_for_count ≤ 0 — not necessarily 0: a precondition failing, being
retried and then achieving drives a PROCEED dependent's counter to −1 (see
the counterexample). -/
theorem C1_wfw_all_nonpositive (db : Db) (h : Reachable db) :
    ∀ g ∈ db.goals, g.state = .waiting_for_worker → g.preconditions_mode = .all →
      g.waiting_for_count ≤ 0 :=
  (reach_inv db h).1

/-- The precondition goal of the C1 scenario, as `schedule` commits it. -/
def c1P : Goal :=
  { gid := 1, state := .waiting_for_worker, handler := "p", precondition_date := 0,
    preconditions_mode := .all, precondition_failure_behavior := .block,
    waiting_for_count := 0, waiting_for_not_achieved_count := 0,
    waiting_for_failed_count := 0, deadline := 604800, created_at := 0 }

/-- The C1 scenario: schedule P; schedule D waiting on P with PROCEED;
block P; let D proceed to WAITING_FOR_WORKER; unblock-retry P; let P reach
WAITING_FOR_WORKER again; dispatch P to success. -/
def c1db1 : Db := schedule {} 1 0 "p" none none false none none .all .block {}

def c1db2 : Db := schedule c1db1 2 0 "d" none (some [c1P]) false none none .all .proceed {}

def c1db3 : Db := mark_as_failed [1] .blocked c1db2

def c1db4 : Db := (handle_waiting_for_preconditions c1db3).1

def c1db5 : Db := mark_as_unfailed [1] c1db4

def c1db6 : Db := (handle_waiting_for_date 0 c1db5).1

def c1db7 : Db := (handle_waiting_for_preconditions c1db6).1

def c1db8 : Db := (handle_waiting_for_worker ({} : Settings) none 0 .all_done c1db7).1

/-- C1 counterexample: the state after the scenario is reachable, yet the
dependent sits in WAITING_FOR_WORKER with ALL mode and
waiting_for_count = −1 ≠ 0: PROCEED already subtracted the count when P
failed, and P's later achievement subtracts it again. -/
theorem C1_counterexample :
    Reachable c1db8 ∧ ∃ g ∈ c1db8.goals, g.state = .waiting_for_worker ∧
      g.preconditions_mode = .all ∧ g.waiting_for_count ≠ 0 := by
  have h1 : Reachable c1db1 :=
    .step .empty (.schedule_op {} 1 0 "p" none none false none none .all .block {} (by decide))
  have h2 : Reachable c1db2 :=
    .step h1 (.schedule_op c1db1 2 0 "d" none (some [c1P]) false none none
      .all .proceed {} (by decide))
  have h3 : Reachable c1db3 := .step h2 (.block_op c1db2 c1db3 1 (by rfl))
  have h4 : Reachable c1db4 := .step h3 (.t_precond_op c1db3)
  have h5 : Reachable c1db5 := .step h4 (.unblock_op c1db4 c1db5 1 (by rfl))
  have h6 : Reachable c1db6 := .step h5 (.t_date_op c1db5 0)
  have h7 : Reachable c1db7 := .step h6 (.t_precond_op c1db6)
  have h8 : Reachable c1db8 := .step h7 (.dispatch_op c1db7 {} none 0 .all_done)
  exact ⟨h8, by decide⟩

/-- C1 witness: the invariant, applied to the reachable one-goal database
produced by a single schedule call. -/
theorem C1_witness :
    c1P ∈ c1db1.goals ∧ c1P.state = .waiting_for_worker ∧
    c1P.preconditions_mode = .all ∧ c1P.waiting_for_count ≤ 0 :=
  ⟨by decide, rfl, rfl,
   C1_wfw_all_nonpositive c1db1
     (.step .empty (.schedule_op {} 1 0 "p" none none false none none
       .all .block {} (by decide)))
     c1P (by decide) rfl rfl⟩

/-! ## C7: deadline tightening over the precondition-ancestor graph -/

/-- Row relation of one `update_goals_deadline` call: a row is unchanged or
its deadline is clamped to `min deadline d`. -/
def low_rel (d : Int) (a b : Goal) : Prop :=
  b = a ∨ b = { a with deadline := min a.deadline d }

theorem low_rel_refl (d : Int) (a : Goal) : low_rel d a a := Or.inl rfl

theorem low_rel_gid {d : Int} {a b : Goal} (h : low_rel d a b) : b.gid = a.gid := by
  rcases h with h | h <;> rw [h]

theorem low_rel_state {d : Int} {a b : Goal} (h : low_rel d a b) :
    b.state = a.state := by
  rcases h with h | h <;> rw [h]

theorem low_rel_fields {d : Int} {a b : Goal} (h : low_rel d a b) :
    b.deadline ≤ a.deadline ∧ (d < b.deadline → b.deadline = a.deadline) := by
  rcases h with h | h
  · rw [h]
    exact ⟨le_refl _, fun _ => rfl⟩
  · rw [h]
    show min a.deadline d ≤ a.deadline ∧ (d < min a.deadline d → min a.deadline d = a.deadline)
    constructor
    · omega
    · intro hlt
      omega

theorem low_rel_trans {d : Int} {a b c : Goal}
    (h1 : low_rel d a b) (h2 : low_rel d b c) : low_rel d a c := by
  rcases h1 with h1 | h1
  · rw [h1] at h2
    exact h2
  · rcases h2 with h2 | h2
    · rw [h2]
      exact Or.inr h1
    · rw [h2, h1]
      refine Or.inr ?_
      show _ = { a with deadline := min a.deadline d }
      have hmm : min (min a.deadline d) d = min a.deadline d := by omega
      rw [hmm]

theorem forall2_low_trans {d : Int} {l1 l2 l3 : List Goal}
    (h12 : List.Forall₂ (low_rel d) l1 l2) (h23 : List.Forall₂ (low_rel d) l2 l3) :
    List.Forall₂ (low_rel d) l1 l3 :=
  forall2_comp (fun (a b c : Goal) (h1 : low_rel d a b) (h2 : low_rel d b c) =>
    low_rel_trans h1 h2) h12 h23

/-- Reverse lookup transport along a gid-preserving `Forall₂`. -/
theorem forall2_find?_rev {R : Goal → Goal → Prop}
    (hgid : ∀ a b, R a b → b.gid = a.gid) {gs gs' : List Goal}
    (h : List.Forall₂ R gs gs') (i : Nat) {g' : Goal}
    (hfind : gs'.find? (fun g => g.gid = i) = some g') :
    ∃ g, gs.find? (fun g => g.gid = i) = some g ∧ R g g' := by
  have hflip : List.Forall₂ (fun a b => R b a) gs' gs := List.Forall₂.flip h
  obtain ⟨g, hg, hr⟩ := forall2_find? (fun a b hr => (hgid b a hr).symm) hflip i hfind
  exact ⟨g, hg, hr⟩

/-- The rows still above deadline `d` (the recursion's termination
measure). -/
def countLate (d : Int) (gs : List Goal) : Nat :=
  gs.countP (fun g => decide (d < g.deadline) && !(g.state == GoalState.achieved))

theorem forall2_countP_le {p : Goal → Bool} {l1 l2 : List Goal}
    (h : List.Forall₂ (fun a b => p b = true → p a = true) l1 l2) :
    l2.countP p ≤ l1.countP p := by
  induction h with
  | nil => exact le_refl _
  | cons hab hrest ih =>
    rename_i a b t1 t2
    by_cases hb : p b = true
    · rw [List.countP_cons_of_pos _ _ hb, List.countP_cons_of_pos _ _ (hab hb)]
      omega
    · rw [List.countP_cons_of_neg _ _ hb]
      by_cases ha : p a = true
      · rw [List.countP_cons_of_pos _ _ ha]
        omega
      · rw [List.countP_cons_of_neg _ _ ha]
        omega

theorem forall2_low_countLate {d : Int} {l1 l2 : List Goal}
    (h : List.Forall₂ (low_rel d) l1 l2) : countLate d l2 ≤ countLate d l1 := by
  refine forall2_countP_le (List.Forall₂.imp ?_ h)
  intro a b hab hb
  simp only [Bool.and_eq_true, decide_eq_true_eq, Bool.not_eq_true', beq_eq_false_iff_ne,
    ne_eq] at hb ⊢
  obtain ⟨hlt, hna⟩ := hb
  have hdl := (low_rel_fields hab).2 hlt
  have hst := low_rel_state hab
  rw [hdl] at hlt
  rw [hst] at hna
  exact ⟨hlt, hna⟩

theorem countP_map_lt {l : List Goal} {f : Goal → Goal} {p : Goal → Bool}
    (hle : ∀ a ∈ l, p (f a) = true → p a = true)
    (r : Goal) (hr : r ∈ l) (hp : p r = true) (hnp : p (f r) = false) :
    (l.map f).countP p < l.countP p := by
  induction l with
  | nil => cases hr
  | cons x t ih =>
    rw [List.map_cons]
    have hmaple : (t.map f).countP p ≤ t.countP p := by
      refine forall2_countP_le ?_
      refine forall2_map_self (fun a ha => ?_)
      exact hle a (List.mem_cons_of_mem _ ha)
    rcases List.mem_cons.mp hr with hx | ht
    · subst hx
      rw [List.countP_cons_of_neg _ _ (by rw [hnp]; exact Bool.false_ne_true),
        List.countP_cons_of_pos _ _ hp]
      omega
    · have hstrict := ih (fun a ha hpa => hle a (List.mem_cons_of_mem _ ha) hpa) ht
      by_cases hfx : p (f x) = true
      · rw [List.countP_cons_of_pos _ _ hfx,
          List.countP_cons_of_pos _ _ (hle x (List.mem_cons_self _ _) hfx)]
        omega
      · rw [List.countP_cons_of_neg _ _ hfx]
        by_cases hx2 : p x = true
        · rw [List.countP_cons_of_pos _ _ hx2]
          omega
        · rw [List.countP_cons_of_neg _ _ hx2]
          omega

/-- A property of a row (being settled below the deadline) survives further
clamping passes. -/
theorem rowle_transport {d : Int} {l l' : List Goal}
    (h : List.Forall₂ (low_rel d) l l') (j : Nat)
    (hrow : ∀ gj, l.find? (fun g => g.gid = j) = some gj →
      gj.state ≠ .achieved → gj.deadline ≤ d) :
    ∀ gj', l'.find? (fun g => g.gid = j) = some gj' →
      gj'.state ≠ .achieved → gj'.deadline ≤ d := by
  intro gj' hfind hna
  obtain ⟨gj, hgj, hr⟩ := forall2_find?_rev (fun a b hab => low_rel_gid hab) h j hfind
  have hle := (low_rel_fields hr).1
  have hst := low_rel_state hr
  rw [hst] at hna
  exact le_trans hle (hrow gj hgj hna)

/-- The central facts about one `update_goals_deadline` call, by induction
on fuel: (A) every row is at most clamped to `min deadline d`; (B) every id
passed in ends at or below `d` unless its row is achieved or absent; (C)
whenever the call lowers a row from above `d` to at most `d`, the rows of
that goal's preconditions also end at or below `d` (or are achieved or
absent). -/
theorem ugd_main (deps : List (Nat × Nat)) (d : Int) :
    ∀ (fuel : Nat) (gs : List Goal) (ids : List Nat),
      countLate d gs < fuel →
      List.Forall₂ (low_rel d) gs (update_goals_deadline deps fuel gs ids d) ∧
      (∀ i ∈ ids, ∀ g', (update_goals_deadline deps fuel gs ids d).find?
          (fun g => g.gid = i) = some g' → g'.state ≠ .achieved → g'.deadline ≤ d) ∧
      (∀ i gpre gpost, gs.find? (fun g => g.gid = i) = some gpre →
        (update_goals_deadline deps fuel gs ids d).find? (fun g => g.gid = i) = some gpost →
        d < gpre.deadline → gpost.deadline ≤ d →
        ∀ j ∈ precond_ids deps i, ∀ gj,
          (update_goals_deadline deps fuel gs ids d).find? (fun g => g.gid = j) = some gj →
          gj.state ≠ .achieved → gj.deadline ≤ d) := by
  intro fuel
  induction fuel with
  | zero => intro gs ids h; exact absurd h (Nat.not_lt_zero _)
  | succ n ihn =>
    intro gs ids hcnt
    simp only [update_goals_deadline]
    set targets := ids.filter (fun i => match gs.find? (fun g => g.gid = i) with
      | some g => decide (d < g.deadline) && !(g.state == .achieved)
      | none => false) with htargets
    set gs1 := update_where (fun g => targets.contains g.gid)
      (fun g => { g with deadline := min g.deadline d }) gs with hgs1
    have F1 : List.Forall₂ (low_rel d) gs gs1 := by
      rw [hgs1]
      simp only [update_where]
      refine forall2_map_self (fun a _ => ?_)
      split_ifs with h
      · exact Or.inr rfl
      · exact Or.inl rfl
    have hfold : ∀ (ts : List Nat) (acc : List Goal), countLate d acc < n →
        List.Forall₂ (low_rel d) acc (ts.foldl (fun acc i =>
          update_goals_deadline deps n acc (precond_ids deps i) d) acc) ∧
        (∀ t ∈ ts, ∀ j ∈ precond_ids deps t, ∀ gj,
          (ts.foldl (fun acc i => update_goals_deadline deps n acc (precond_ids deps i) d)
            acc).find? (fun g => g.gid = j) = some gj →
          gj.state ≠ .achieved → gj.deadline ≤ d) ∧
        (∀ i gpre gpost, acc.find? (fun g => g.gid = i) = some gpre →
          (ts.foldl (fun acc i => update_goals_deadline deps n acc (precond_ids deps i) d)
            acc).find? (fun g => g.gid = i) = some gpost →
          d < gpre.deadline → gpost.deadline ≤ d →
          ∀ j ∈ precond_ids deps i, ∀ gj,
            (ts.foldl (fun acc i => update_goals_deadline deps n acc (precond_ids deps i) d)
              acc).find? (fun g => g.gid = j) = some gj →
            gj.state ≠ .achieved → gj.deadline ≤ d) := by
      intro ts
      induction ts with
      | nil =>
        intro acc hacc
        refine ⟨forall2_refl (low_rel_refl d) acc, ?_, ?_⟩
        · intro t ht
          cases ht
        · intro i gpre gpost hpre hpost hlt hled
          rw [List.foldl_nil] at hpost
          rw [hpre] at hpost
          have : gpre = gpost := Option.some.inj hpost
          rw [← this] at hled
          omega
      | cons t ts ihts =>
        intro acc hacc
        rw [List.foldl_cons]
        obtain ⟨subA, subB, subC⟩ := ihn acc (precond_ids deps t) hacc
        have hacc1cnt : countLate d
            (update_goals_deadline deps n acc (precond_ids deps t) d) < n :=
          lt_of_le_of_lt (forall2_low_countLate subA) hacc
        obtain ⟨restA, restB, restC⟩ :=
          ihts (update_goals_deadline deps n acc (precond_ids deps t) d) hacc1cnt
        refine ⟨forall2_low_trans subA restA, ?_, ?_⟩
        · intro t' ht' j hj gj hgj hna
          rcases List.mem_cons.mp ht' with rfl | ht'
          · refine rowle_transport restA j ?_ gj hgj hna
            intro gj0 hgj0 hna0
            exact subB j hj gj0 hgj0 hna0
          · exact restB t' ht' j hj gj hgj hna
        · intro i gpre gpost hpre hpost hlt hled j hj gj hgj hna
          obtain ⟨gmid, hgmid, hrmid⟩ :=
            forall2_find? (fun a b hab => low_rel_gid hab) subA i hpre
          by_cases hmid : gmid.deadline ≤ d
          · refine rowle_transport restA j ?_ gj hgj hna
            intro gj0 hgj0 hna0
            exact subC i gpre gmid hpre hgmid hlt hmid j hj gj0 hgj0 hna0
          · push_neg at hmid
            exact restC i gmid gpost hgmid hpost hmid hled j hj gj hgj hna
    by_cases hemp : targets = []
    · rw [hemp]
      simp only [List.foldl_nil]
      have hTfalse : ∀ i ∈ ids, ¬ ((match gs.find? (fun g => g.gid = i) with
          | some g => decide (d < g.deadline) && !(g.state == .achieved)
          | none => false) = true) := by
        intro i hi hT
        have : i ∈ targets := by
          rw [htargets]
          exact List.mem_filter.mpr ⟨hi, hT⟩
        rw [hemp] at this
        cases this
      refine ⟨F1, ?_, ?_⟩
      · intro i hi g' hg' hna
        have hT := hTfalse i hi
        cases hfind : gs.find? (fun g => g.gid = i) with
        | none =>
          obtain ⟨g0, hg0, hr0⟩ :=
            forall2_find?_rev (fun a b hab => low_rel_gid hab) F1 i hg'
          rw [hfind] at hg0
          cases hg0
        | some g =>
          rw [hfind] at hT
          simp only [Bool.and_eq_true, decide_eq_true_eq, Bool.not_eq_true',
            beq_eq_false_iff_ne, ne_eq, not_and, not_not] at hT
          obtain ⟨g0, hg0, hr0⟩ :=
            forall2_find?_rev (fun a b hab => low_rel_gid hab) F1 i hg'
          rw [hfind] at hg0
          have hg0g : g = g0 := Option.some.inj hg0
          by_cases hdl : d < g.deadline
          · exfalso
            have hach := hT hdl
            have hst := low_rel_state hr0
            rw [← hg0g] at hst
            rw [hst, hach] at hna
            exact hna rfl
          · push_neg at hdl
            have hle := (low_rel_fields hr0).1
            rw [← hg0g] at hle
            exact le_trans hle hdl
      · intro i gpre gpost hpre hpost hlt hled j hj gj hgj hna
        have hg1 : gs1.find? (fun g => g.gid = i) = some gpre := by
          rw [hgs1, find?_gid_update_where]
          rotate_left
          · exact fun g => rfl
          rw [hpre]
          simp only [Option.map_some']
          rw [if_neg (by rw [hemp]; simp)]
        rw [hg1] at hpost
        have : gpre = gpost := Option.some.inj hpost
        rw [← this] at hled
        omega
    · have hlt1 : countLate d gs1 < countLate d gs := by
        obtain ⟨i, hi⟩ := List.exists_mem_of_ne_nil targets hemp
        have hi2 := hi
        rw [htargets] at hi2
        have hT := (List.mem_filter.mp hi2).2
        have hiid := (List.mem_filter.mp hi2).1
        cases hfind : gs.find? (fun g => g.gid = i) with
        | none => rw [hfind] at hT; cases hT
        | some g =>
          rw [hfind] at hT
          have hgmem := (find?_gid_mem hfind).1
          have hgid := (find?_gid_mem hfind).2
          have hcont : targets.contains g.gid = true := by
            rw [hgid]
            simpa using hi
          rw [hgs1]
          simp only [update_where, countLate]
          refine countP_map_lt ?_ g hgmem hT ?_
          · intro a _ hpa
            by_cases hca : targets.contains a.gid = true
            · rw [if_pos hca] at hpa
              simp only [Bool.and_eq_true, decide_eq_true_eq] at hpa
              exfalso
              have : min a.deadline d ≤ d := by omega
              have h2 : d < min a.deadline d := hpa.1
              omega
            · rw [if_neg hca] at hpa
              exact hpa
          · rw [if_pos hcont]
            simp only [Bool.and_eq_true, decide_eq_true_eq, Bool.not_eq_true']
            have : ¬ (d < min g.deadline d) := by omega
            simp [this]
      have hsub : countLate d gs1 < n := by omega
      obtain ⟨FA, FB, FC⟩ := hfold targets gs1 hsub
      refine ⟨forall2_low_trans F1 FA, ?_, ?_⟩
      · intro i hi g' hg' hna
        by_cases hT : (match gs.find? (fun g => g.gid = i) with
            | some g => decide (d < g.deadline) && !(g.state == .achieved)
            | none => false) = true
        · have hitar : i ∈ targets := by
            rw [htargets]
            exact List.mem_filter.mpr ⟨hi, hT⟩
          cases hfind : gs.find? (fun g => g.gid = i) with
          | none => rw [hfind] at hT; cases hT
          | some g =>
            have hgid : g.gid = i := (find?_gid_mem hfind).2
            have hg1row : gs1.find? (fun g => g.gid = i) =
                some { g with deadline := min g.deadline d } := by
              rw [hgs1, find?_gid_update_where]
              rotate_left
              · exact fun g => rfl
              rw [hfind]
              simp only [Option.map_some']
              rw [if_pos (by rw [hgid]; simpa using hitar)]
            refine rowle_transport FA i ?_ g' hg' hna
            intro gj0 hgj0 hna0
            rw [hg1row] at hgj0
            have : _ = gj0 := Option.some.inj hgj0
            rw [← this]
            show min g.deadline d ≤ d
            omega
        · cases hfind : gs.find? (fun g => g.gid = i) with
          | none =>
            obtain ⟨g0, hg0, hr0⟩ :=
              forall2_find?_rev (fun a b hab => low_rel_gid hab)
                (forall2_low_trans F1 FA) i hg'
            rw [hfind] at hg0
            cases hg0
          | some g =>
            rw [hfind] at hT
            simp only [Bool.and_eq_true, decide_eq_true_eq, Bool.not_eq_true',
              beq_eq_false_iff_ne, ne_eq, not_and, not_not] at hT
            obtain ⟨g0, hg0, hr0⟩ :=
              forall2_find?_rev (fun a b hab => low_rel_gid hab)
                (forall2_low_trans F1 FA) i hg'
            rw [hfind] at hg0
            have hg0g : g = g0 := Option.some.inj hg0
            by_cases hdl : d < g.deadline
            · exfalso
              have hach := hT hdl
              have hst := low_rel_state hr0
              rw [← hg0g] at hst
              rw [hst, hach] at hna
              exact hna rfl
            · push_neg at hdl
              have hle := (low_rel_fields hr0).1
              rw [← hg0g] at hle
              exact le_trans hle hdl
      · intro i gpre gpost hpre hpost hlt hled j hj gj hgj hna
        have hgid : gpre.gid = i := (find?_gid_mem hpre).2
        by_cases htar : targets.contains gpre.gid = true
        · have hmem : i ∈ targets := by
            rw [← hgid]
            simpa using htar
          exact FB i hmem j hj gj hgj hna
        · have hg1 : gs1.find? (fun g => g.gid = i) = some gpre := by
            rw [hgs1, find?_gid_update_where]
            rotate_left
            · exact fun g => rfl
            rw [hpre]
            simp only [Option.map_some']
            rw [if_neg htar]
          exact FC i gpre gpost hg1 hpost hlt hled j hj gj hgj hna

theorem ugd_succ (deps : List (Nat × Nat)) (fuel : Nat) (gs : List Goal)
    (ids : List Nat) (d : Int) :
    update_goals_deadline deps (fuel + 1) gs ids d =
      (ids.filter (fun i => match gs.find? (fun g => g.gid = i) with
        | some g => decide (d < g.deadline) && !(g.state == .achieved)
        | none => false)).foldl
        (fun acc i => update_goals_deadline deps fuel acc (precond_ids deps i) d)
        (update_where (fun g => (ids.filter (fun i =>
            match gs.find? (fun g => g.gid = i) with
            | some g => decide (d < g.deadline) && !(g.state == .achieved)
            | none => false)).contains g.gid)
          (fun g => { g with deadline := min g.deadline d }) gs) := rfl

theorem targets_decrease (d : Int) (gs : List Goal) (ids : List Nat)
    (hne : ids.filter (fun i => match gs.find? (fun g => g.gid = i) with
      | some g => decide (d < g.deadline) && !(g.state == .achieved)
      | none => false) ≠ []) :
    countLate d (update_where (fun g => (ids.filter (fun i =>
        match gs.find? (fun g => g.gid = i) with
        | some g => decide (d < g.deadline) && !(g.state == .achieved)
        | none => false)).contains g.gid)
      (fun g => { g with deadline := min g.deadline d }) gs) < countLate d gs := by
  set targets := ids.filter (fun i => match gs.find? (fun g => g.gid = i) with
    | some g => decide (d < g.deadline) && !(g.state == .achieved)
    | none => false) with htargets
  obtain ⟨i, hi⟩ := List.exists_mem_of_ne_nil targets hne
  have hi2 := hi
  rw [htargets] at hi2
  have hT := (List.mem_filter.mp hi2).2
  cases hfind : gs.find? (fun g => g.gid = i) with
  | none => rw [hfind] at hT; cases hT
  | some g =>
    rw [hfind] at hT
    have hgmem := (find?_gid_mem hfind).1
    have hgid := (find?_gid_mem hfind).2
    have hcont : targets.contains g.gid = true := by
      rw [hgid]
      simpa using hi
    simp only [update_where, countLate]
    refine countP_map_lt ?_ g hgmem hT ?_
    · intro a _ hpa
      by_cases hca : targets.contains a.gid = true
      · rw [if_pos hca] at hpa
        simp only [Bool.and_eq_true, decide_eq_true_eq] at hpa
        exfalso
        have h1 : min a.deadline d ≤ d := by omega
        have h2 : d < min a.deadline d := hpa.1
        omega
      · rw [if_neg hca] at hpa
        exact hpa
    · rw [if_pos hcont]
      simp only [Bool.and_eq_true, decide_eq_true_eq, Bool.not_eq_true']
      have h3 : ¬ (d < min g.deadline d) := by omega
      simp [h3]

/-- Any fuel above the number of late rows computes the same result: the
source recursion has already reached its fixed point (termination). -/
theorem ugd_fuel_stable (deps : List (Nat × Nat)) (d : Int) :
    ∀ (fuel : Nat) (gs : List Goal) (ids : List Nat), countLate d gs < fuel →
      update_goals_deadline deps (fuel + 1) gs ids d =
        update_goals_deadline deps fuel gs ids d := by
  intro fuel
  induction fuel with
  | zero => intro gs ids h; exact absurd h (Nat.not_lt_zero _)
  | succ n ihn =>
    intro gs ids hcnt
    rw [ugd_succ deps (n + 1) gs ids d, ugd_succ deps n gs ids d]
    set targets := ids.filter (fun i => match gs.find? (fun g => g.gid = i) with
      | some g => decide (d < g.deadline) && !(g.state == .achieved)
      | none => false) with htargets
    set gs1 := update_where (fun g => targets.contains g.gid)
      (fun g => { g with deadline := min g.deadline d }) gs with hgs1
    by_cases hemp : targets = []
    · rw [hemp]
      rfl
    · have hlt1 : countLate d gs1 < countLate d gs := by
        rw [hgs1, htargets]
        exact targets_decrease d gs ids (htargets ▸ hemp)
      have hsub : countLate d gs1 < n := by omega
      have hfold2 : ∀ (ts : List Nat) (acc : List Goal), countLate d acc < n →
          ts.foldl (fun acc i =>
            update_goals_deadline deps (n + 1) acc (precond_ids deps i) d) acc =
          ts.foldl (fun acc i =>
            update_goals_deadline deps n acc (precond_ids deps i) d) acc := by
        intro ts
        induction ts with
        | nil => intro acc _; rfl
        | cons t ts ihts =>
          intro acc hacc
          rw [List.foldl_cons, List.foldl_cons]
          rw [ihn acc (precond_ids deps t) hacc]
          refine ihts _ ?_
          have subA := (ugd_main deps d n acc (precond_ids deps t) hacc).1
          exact lt_of_le_of_lt (forall2_low_countLate subA) hacc
      exact hfold2 targets gs1 hsub

theorem ugd_fuel_eq (deps : List (Nat × Nat)) (d : Int) (gs : List Goal)
    (ids : List Nat) {f1 f2 : Nat} (h1 : countLate d gs < f1)
    (h2 : countLate d gs < f2) :
    update_goals_deadline deps f1 gs ids d = update_goals_deadline deps f2 gs ids d := by
  have aux : ∀ (k f : Nat), countLate d gs < f →
      update_goals_deadline deps (f + k) gs ids d =
        update_goals_deadline deps f gs ids d := by
    intro k
    induction k with
    | zero => intro f _; rfl
    | succ m ihk =>
      intro f hf
      have he : f + (m + 1) = (f + m) + 1 := by omega
      rw [he, ugd_fuel_stable deps d (f + m) gs ids (by omega)]
      exact ihk f hf
  rcases Nat.le_total f1 f2 with h | h
  · obtain ⟨k, rfl⟩ : ∃ k, f2 = f1 + k := ⟨f2 - f1, by omega⟩
    rw [aux k f1 h1]
  · obtain ⟨k, rfl⟩ : ∃ k, f1 = f2 + k := ⟨f1 - f2, by omega⟩
    rw [aux k f2 h2]

/-- Precondition-ancestor chains through non-ACHIEVED rows of `gs`:
`NaReach deps gs i k` when a chain of dependency edges leads from `i` to
`k` and every goal on it (including both ends) exists and is not
achieved. -/
inductive NaReach (deps : List (Nat × Nat)) (gs : List Goal) : Nat → Nat → Prop where
  | refl (i : Nat) (gi : Goal) (hgi : gs.find? (fun g => g.gid = i) = some gi)
      (hna : gi.state ≠ .achieved) : NaReach deps gs i i
  | step {i j k : Nat} (h : NaReach deps gs i j) (hedge : (j, k) ∈ deps)
      (gk : Goal) (hgk : gs.find? (fun g => g.gid = k) = some gk)
      (hna : gk.state ≠ .achieved) : NaReach deps gs i k

theorem NaReach_last {deps : List (Nat × Nat)} {gs : List Goal} {i j : Nat}
    (h : NaReach deps gs i j) :
    ∃ gj, gs.find? (fun g => g.gid = j) = some gj ∧ gj.state ≠ .achieved := by
  cases h with
  | refl gi hgi hna => exact ⟨gi, hgi, hna⟩
  | step h hedge gk hgk hna => exact ⟨gk, hgk, hna⟩

theorem mem_precond_ids {deps : List (Nat × Nat)} {j k : Nat} (h : (j, k) ∈ deps) :
    k ∈ precond_ids deps j := by
  unfold precond_ids
  refine List.mem_map.mpr ⟨(j, k), ?_, rfl⟩
  exact List.mem_filter.mpr ⟨h, by simp⟩

theorem low_rel_unchanged {d : Int} {a b : Goal} (h : low_rel d a b)
    (hle : a.deadline ≤ d) : b = a := by
  rcases h with h | h
  · exact h
  · rw [h]
    have hmin : min a.deadline d = a.deadline := by omega
    rw [hmin]

theorem chain_cover (deps : List (Nat × Nat)) (d : Int) {gs gs' : List Goal}
    (ids : List Nat)
    (edgeInv : ∀ e ∈ deps, ∀ gi gj, gs.find? (fun g => g.gid = e.1) = some gi →
      gs.find? (fun g => g.gid = e.2) = some gj → gj.state ≠ .achieved →
      gj.deadline ≤ gi.deadline)
    (hA : List.Forall₂ (low_rel d) gs gs')
    (hB : ∀ i ∈ ids, ∀ g', gs'.find? (fun g => g.gid = i) = some g' →
      g'.state ≠ .achieved → g'.deadline ≤ d)
    (hC : ∀ i gpre gpost, gs.find? (fun g => g.gid = i) = some gpre →
      gs'.find? (fun g => g.gid = i) = some gpost →
      d < gpre.deadline → gpost.deadline ≤ d →
      ∀ j ∈ precond_ids deps i, ∀ gj, gs'.find? (fun g => g.gid = j) = some gj →
        gj.state ≠ .achieved → gj.deadline ≤ d)
    (i : Nat) (hi : i ∈ ids) :
    ∀ k, NaReach deps gs' i k → ∀ gk, gs'.find? (fun g => g.gid = k) = some gk →
      gk.deadline ≤ d := by
  intro k hreach
  induction hreach with
  | refl gi hgi hna =>
    intro gk hgk
    have heq : gi = gk := by rw [hgi] at hgk; exact Option.some.inj hgk
    rw [← heq]
    exact hB i hi gi hgi hna
  | step h hedge gk1 hgk1 hna1 ih =>
    intro gk hgk
    have hkk : gk1 = gk := by rw [hgk1] at hgk; exact Option.some.inj hgk
    rw [← hkk]
    obtain ⟨gj', hgj', hnaj⟩ := NaReach_last h
    have hjd : gj'.deadline ≤ d := ih gj' hgj'
    obtain ⟨gjpre, hgjpre, hrj⟩ :=
      forall2_find?_rev (fun a b hab => low_rel_gid hab) hA _ hgj'
    obtain ⟨gkpre, hgkpre, hrk⟩ :=
      forall2_find?_rev (fun a b hab => low_rel_gid hab) hA _ hgk1
    by_cases hjlate : d < gjpre.deadline
    · exact hC _ gjpre gj' hgjpre hgj' hjlate hjd _ (mem_precond_ids hedge) gk1 hgk1 hna1
    · push_neg at hjlate
      have hnak_pre : gkpre.state ≠ .achieved := by
        have hseq := low_rel_state hrk
        rw [hseq] at hna1
        exact hna1
      have hedgeineq := edgeInv _ hedge gjpre gkpre hgjpre hgkpre hnak_pre
      have hkle := (low_rel_fields hrk).1
      exact le_trans hkle (le_trans hedgeineq hjlate)

/-- C7: the deadline propagation `_add_precondition_goals` runs (fuel
`goals.length + 1`, as at the call site) clamps every row to at most
`min deadline d` and leaves rows already at or below `d` unchanged;
assuming the engine's own edge invariant — a non-ACHIEVED precondition
never has a later deadline than its dependent — every goal reachable from
the ids through precondition-ancestor chains of non-ACHIEVED goals ends
with deadline ≤ d; and any fuel above the number of late rows computes the
same fixed result, so the source recursion terminates on every finite
graph. -/
theorem C7_deadline_tightening (deps : List (Nat × Nat)) (gs : List Goal)
    (ids : List Nat) (d : Int)
    (edgeInv : ∀ e ∈ deps, ∀ gi gj, gs.find? (fun g => g.gid = e.1) = some gi →
      gs.find? (fun g => g.gid = e.2) = some gj → gj.state ≠ .achieved →
      gj.deadline ≤ gi.deadline) :
    List.Forall₂ (fun a b => (b = a ∨ b = { a with deadline := min a.deadline d }) ∧
      (a.deadline ≤ d → b = a)) gs (update_goals_deadline deps (gs.length + 1) gs ids d) ∧
    (∀ i ∈ ids, ∀ k,
      NaReach deps (update_goals_deadline deps (gs.length + 1) gs ids d) i k →
      ∀ gk, (update_goals_deadline deps (gs.length + 1) gs ids d).find?
        (fun g => g.gid = k) = some gk → gk.deadline ≤ d) ∧
    (∀ fuel, countLate d gs < fuel →
      update_goals_deadline deps fuel gs ids d =
        update_goals_deadline deps (gs.length + 1) gs ids d) := by
  have hcnt : countLate d gs < gs.length + 1 :=
    Nat.lt_succ_of_le (List.countP_le_length _)
  obtain ⟨hA, hB, hC⟩ := ugd_main deps d (gs.length + 1) gs ids hcnt
  refine ⟨?_, ?_, ?_⟩
  · refine List.Forall₂.imp ?_ hA
    intro a b hab
    exact ⟨hab, fun hle => low_rel_unchanged hab hle⟩
  · intro i hi k hreach gk hgk
    exact chain_cover deps d ids edgeInv hA hB hC i hi k hreach gk hgk
  · intro fuel hf
    exact ugd_fuel_eq deps d gs ids hf hcnt

/-- A two-goal ancestor chain for the C7 witness: goal 2 has precondition
goal 3, both with deadline 50. -/
def c7gs : List Goal :=
  [{ exWorker with gid := 3, deadline := 50 }, { exWorker with gid := 2, deadline := 50 }]

/-- C7 witness: tightening to deadline 7 starting from goal 2 reaches its
precondition goal 3 through the chain and clamps it to 7. -/
theorem C7_witness :
    (update_goals_deadline [(2, 3)] (c7gs.length + 1) c7gs [2] 7).find?
      (fun g => g.gid = 3) = some { exWorker with gid := 3, deadline := 7 } ∧
    ({ exWorker with gid := 3, deadline := 7 } : Goal).deadline ≤ 7 :=
  ⟨by decide,
   (C7_deadline_tightening [(2, 3)] c7gs [2] 7 (by
      intro e he gi gj hgi hgj hna
      have he2 : e = (2, 3) := by simpa using he
      subst he2
      have h1 : c7gs.find? (fun g => g.gid = (2, 3).1) =
          some { exWorker with gid := 2, deadline := 50 } := by decide
      have h2 : c7gs.find? (fun g => g.gid = (2, 3).2) =
          some { exWorker with gid := 3, deadline := 50 } := by decide
      rw [h1] at hgi
      rw [h2] at hgj
      rw [← Option.some.inj hgi, ← Option.some.inj hgj])).2.1 2 (by decide) 3
     (NaReach.step
       (NaReach.refl 2 { exWorker with gid := 2, deadline := 7 } (by decide) (by decide))
       (by decide) { exWorker with gid := 3, deadline := 7 } (by decide) (by decide))
     { exWorker with gid := 3, deadline := 7 } (by decide)⟩

end DjangoGoals
